import Mathlib

/-!
Shallow embedding of the JSON library in src/json.h (single-header C JSON
decoder/encoder) and proofs about the claims of its specification.

Modelling conventions:
* A C byte/char buffer is a List Nat of byte values (0 ≤ b < 256 for real
  inputs).  The public entry point json_decode passes length = strlen(input),
  so the buffer never contains an interior NUL byte; reading the terminating
  NUL of the C string is modelled by List.getD with default 0.
* Parser state (struct json_parser) is the pair of the input list and an
  explicit position; each parsing routine returns the updated position.
  The error struct is modelled by the Except error value: every C routine
  that returns -1 after JSON_PARSER_ERROR(code, msg) is modelled as
  .error code.
* Allocation is assumed to succeed inside the decoder (the MEMORY paths are
  not exercised by any claim about the decoder); json_object_set and
  json_array_push are additionally modelled with an explicit allocation
  oracle where a claim is about allocation failure behaviour.
* The mutually recursive parsing routines take an explicit fuel argument so
  that all definitions are structurally recursive and kernel-computable.
  Fuel is strictly larger than needed in every theorem below; a fuel-out is
  reported as the distinguished error code fuelOut, which never occurs in
  any of the runs appearing in the theorems.
* The binary64 arithmetic performed by strtod and snprintf("%.17g") is not
  part of the embedding: the numeric payload of a decoded number is the
  exact rational value of the accepted token (ratOfToken), and the encoder
  takes the number formatter as an explicit parameter.  No claim settled
  here depends on binary64 rounding.
-/

namespace JsonH

/-- Convenience: byte values of a Lean string (all source literals used here
are plain ASCII). -/
def str (s : String) : List Nat := s.data.map Char.toNat

/-- Reading the current character of a C string: an empty remainder stands
for the terminating NUL byte and reads as 0. -/
def cstrHead : List Nat → Nat
  | [] => 0
  | c :: _ => c

/-- Error codes of the parser error struct in src/json.h (lines 722-729),
plus the artificial code fuelOut marking exhaustion of the structural fuel
of the model (never reached in any run appearing in a theorem). -/
inductive ErrCode where
  | syn
  | memory
  | eof
  | invalidNumber
  | fuelOut
deriving DecidableEq, Repr

/-- Decoded JSON value (struct json_value, src/json.h lines 149-246).
The boolean payload is stored by the C code as the double 1.0 or 0.0 in the
shared number slot; it is modelled as a Bool.  The number payload is the
exact rational value of the accepted token (see ratOfToken); array and
object payloads keep the capacity field of the C growable containers next
to the list of current items. -/
inductive JValue where
  | null
  | boolean (b : Bool)
  | number (q : ℚ)
  | string (bytes : List Nat)
  | array (capacity : Nat) (items : List JValue)
  | object (capacity : Nat) (items : List (List Nat × JValue))

/-- Whitespace recognised by json__parse_whitespace (src/json.h line 845):
space, tab, newline, carriage return. -/
def isWS (c : Nat) : Bool := c = 32 || c = 9 || c = 10 || c = 13

/-- json__parse_whitespace (src/json.h lines 839-849): advance the position
over whitespace.  The C while loop is rendered with takeWhile. -/
def parseWS (s : List Nat) (pos : Nat) : Nat :=
  pos + ((s.drop pos).takeWhile isWS).length

/-- ASCII decimal digit test used throughout the number parser. -/
def isDigitB (c : Nat) : Bool := 48 ≤ c && c ≤ 57

/-- ASCII hexadecimal digit test (used by the strtod model). -/
def isHexB (c : Nat) : Bool :=
  isDigitB c || (97 ≤ c && c ≤ 102) || (65 ≤ c && c ≤ 70)

/-- json__streqn (src/json.h lines 829-837).  The C loop advances both
C strings while both are not at NUL, the current characters agree and the
post-decremented limit stays above 1, then compares the current characters.
Note that for limit = n only the first n characters are ever inspected. -/
def json_streqn : List Nat → List Nat → Nat → Bool
  | s1, s2, 0 =>
    if cstrHead s1 ≠ 0 && cstrHead s2 ≠ 0 && cstrHead s1 = cstrHead s2 then true
    else cstrHead s1 = cstrHead s2
  | s1, s2, limit + 1 =>
    if cstrHead s1 ≠ 0 && cstrHead s2 ≠ 0 && cstrHead s1 = cstrHead s2 then
      if limit + 1 ≤ 1 then true
      else json_streqn s1.tail s2.tail limit
    else cstrHead s1 = cstrHead s2

/-- json__streq (src/json.h lines 813-827): equality of two NUL-terminated
C strings, i.e. equality of the prefixes before the first NUL byte. -/
def json_streq (s1 s2 : List Nat) : Bool :=
  s1.takeWhile (· ≠ 0) = s2.takeWhile (· ≠ 0)

/-! ## Number decoding (json__decode_number, src/json.h lines 1104-1164)

The routines below work on the remainder of the input starting at the
current parser position; the caller converts the returned remainder back
into a position.  json__parser_consume_digits (lines 1096-1102) becomes
dropWhile isDigitB. -/

/-- Integer part step of json__decode_number (lines 1112-1120): a single 0,
or a digit 1-9 followed by json__parser_consume_digits; anything else is
JSON_ERROR_INVALID_NUMBER. -/
def jdnInt (r : List Nat) : Except ErrCode (List Nat) :=
  if cstrHead r = 48 then .ok r.tail
  else if 49 ≤ cstrHead r ∧ cstrHead r ≤ 57 then .ok (r.dropWhile isDigitB)
  else .error .invalidNumber

/-- Fraction part step of json__decode_number (lines 1122-1131): an optional
dot which must be followed by at least one digit. -/
def jdnFrac (r : List Nat) : Except ErrCode (List Nat) :=
  if cstrHead r = 46 then
    if isDigitB (cstrHead r.tail) then .ok (r.tail.dropWhile isDigitB)
    else .error .invalidNumber
  else .ok r

/-- Exponent part step of json__decode_number (lines 1133-1147): an optional
e or E, an optional sign, then at least one digit. -/
def jdnExp (r : List Nat) : Except ErrCode (List Nat) :=
  if cstrHead r = 101 ∨ cstrHead r = 69 then
    if isDigitB (cstrHead (if cstrHead r.tail = 45 ∨ cstrHead r.tail = 43 then r.tail.tail
        else r.tail)) then
      .ok ((if cstrHead r.tail = 45 ∨ cstrHead r.tail = 43 then r.tail.tail
        else r.tail).dropWhile isDigitB)
    else .error .invalidNumber
  else .ok r

/-- Numeric digit string value (most significant digit first). -/
def digitsValN (ds : List Nat) : Nat := ds.foldl (fun a c => 10 * a + (c - 48)) 0

/-- Exact rational value of an accepted number token.  The C code stores
strtod(token), a binary64; this model keeps the exact decimal value of the
token instead (the rounding step of strtod is outside the embedding, see
the file comment).  The token is re-read as sign, integer digits, optional
fraction digits and optional signed exponent digits. -/
def ratOfToken (tok : List Nat) : ℚ :=
  let neg := cstrHead tok = 45
  let b := if neg then tok.tail else tok
  let ip := b.takeWhile isDigitB
  let r1 := b.drop ip.length
  let fp :=
    match r1 with
    | 46 :: t => t.takeWhile isDigitB
    | _ => []
  let r2 :=
    match r1 with
    | 46 :: t => t.drop (t.takeWhile isDigitB).length
    | _ => r1
  let eneg :=
    match r2 with
    | c :: t => (c = 101 || c = 69) && cstrHead t = 45
    | [] => false
  let ed :=
    match r2 with
    | c :: t =>
      if c = 101 || c = 69 then
        (if cstrHead t = 45 ∨ cstrHead t = 43 then t.tail else t).takeWhile isDigitB
      else []
    | [] => []
  let mant : ℚ := (digitsValN ip : ℚ) + (digitsValN fp : ℚ) / (10 : ℚ) ^ fp.length
  let signed := if neg then -mant else mant
  if eneg then signed / (10 : ℚ) ^ digitsValN ed else signed * (10 : ℚ) ^ digitsValN ed

/-- C library whitespace (isspace in the C locale), skipped by strtod:
space and the characters 9-13. -/
def isSpaceC (c : Nat) : Bool := c = 32 || (9 ≤ c && c ≤ 13)

/-- Model of the number of bytes consumed by the C99 strtod subject
sequence, for the call at src/json.h line 1156.  strtod is an external
libc function; this definition follows the C99 description of its subject
sequence: optional whitespace, optional sign, then either a hexadecimal
mantissa 0x/0X with hex digits and optional dot and optional p-exponent, or
a decimal mantissa with optional dot and optional e-exponent.  An exponent
letter not followed by a digit is not consumed.  The inf/nan forms are
omitted: json__decode_number calls strtod only after the grammar phase
accepted at least one character, so the text at the call site starts with a
minus sign followed by a digit, or with a digit, and the inf/nan branches
are unreachable.  The subject sequence length is computed by strtodLen
below from three pieces: the optional fraction tail (stdFracPart, with the
digit class as parameter, decimal or hexadecimal), the optional exponent
tail (stdExpPart, with the two exponent letters as parameters, e/E or
p/P; an exponent letter not followed by a digit contributes nothing), and
the whitespace/sign/mantissa accounting in strtodLen itself. -/
def stdFracPart (p : Nat → Bool) (s3 : List Nat) : Nat × List Nat × List Nat :=
  if cstrHead s3 = 46 then
    (1, s3.tail.takeWhile p, s3.tail.drop (s3.tail.takeWhile p).length)
  else (0, [], s3)

def stdExpPart (c1 c2 : Nat) (s4 : List Nat) : Nat :=
  if cstrHead s4 = c1 ∨ cstrHead s4 = c2 then
    if (s4.tail.drop (if cstrHead s4.tail = 43 ∨ cstrHead s4.tail = 45 then 1 else 0)).takeWhile
        isDigitB = [] then 0
    else
      1 + (if cstrHead s4.tail = 43 ∨ cstrHead s4.tail = 45 then 1 else 0)
        + ((s4.tail.drop (if cstrHead s4.tail = 43 ∨ cstrHead s4.tail = 45 then 1
            else 0)).takeWhile isDigitB).length
  else 0

def strtodLen (s : List Nat) : Nat :=
  let w := (s.takeWhile isSpaceC).length
  let s1 := s.drop w
  let g := if cstrHead s1 = 43 ∨ cstrHead s1 = 45 then 1 else 0
  let s2 := s1.drop g
  if cstrHead s2 = 48 ∧ (s2.getD 1 0 = 120 ∨ s2.getD 1 0 = 88)
      ∧ (isHexB (s2.getD 2 0) ∨ (s2.getD 2 0 = 46 ∧ isHexB (s2.getD 3 0))) then
    let t1 := s2.drop 2
    let d1 := t1.takeWhile isHexB
    let f := stdFracPart isHexB (t1.drop d1.length)
    w + g + 2 + d1.length + f.1 + f.2.1.length + stdExpPart 112 80 f.2.2
  else
    let d1 := s2.takeWhile isDigitB
    let f := stdFracPart isDigitB (s2.drop d1.length)
    if d1.length + f.2.1.length = 0 then 0
    else w + g + d1.length + f.1 + f.2.1.length + stdExpPart 101 69 f.2.2

/-- json__decode_number (src/json.h lines 1104-1164) on the remainder r of
the input starting at the parser position.  The grammar phase (sign,
integer part, fraction part, exponent part) is followed by the check of
line 1149 (no character consumed) and the strtod consumption check of
lines 1155-1161: strtod reads from the original position through the end
of the NUL-terminated buffer, and the conversion must consume exactly the
characters the grammar accepted, otherwise JSON_ERROR_INVALID_NUMBER.  On
success the value is the (exact) value of the accepted token and the new
remainder is returned. -/
def jsonDecodeNumberR (r : List Nat) : Except ErrCode (ℚ × List Nat) := do
  let r1 := if cstrHead r = 45 then r.tail else r
  let r2 ← jdnInt r1
  let r3 ← jdnFrac r2
  let r4 ← jdnExp r3
  if r4.length = r.length then .error .invalidNumber
  else
    let consumed := r.length - r4.length
    if strtodLen r = consumed then .ok (ratOfToken (r.take consumed), r4)
    else .error .invalidNumber

/-! ## String decoding (json__decode_string, src/json.h lines 851-1094) -/

/-- Value of one hexadecimal digit character, none for a non-hex character
(the hex digit loop of src/json.h lines 884-899). -/
def hexVal? (c : Nat) : Option Nat :=
  if 48 ≤ c && c ≤ 57 then some (c - 48)
  else if 97 ≤ c && c ≤ 102 then some (c - 97 + 10)
  else if 65 ≤ c && c ≤ 70 then some (c - 65 + 10)
  else none

/-- The four-hex-digit loop of json__decode_string (lines 883-899 and
922-938): reads the bytes at positions e .. e+3 and folds them with shifts
into a code point, failing on a non-hex digit. -/
def parseHex4 (s : List Nat) (e : Nat) : Option Nat := do
  let a ← hexVal? (s.getD e 0)
  let b ← hexVal? (s.getD (e + 1) 0)
  let c ← hexVal? (s.getD (e + 2) 0)
  let d ← hexVal? (s.getD (e + 3) 0)
  pure (((a * 16 + b) * 16 + c) * 16 + d)

/-- UTF-8 encoding of a code point as performed by json__decode_string
(lines 954-1013): 1, 2, 3 or 4 bytes for code points below 0x80, 0x800,
0x10000 and above, written with the same shift/mask arithmetic. -/
def utf8Enc (cp : Nat) : List Nat :=
  if cp < 128 then [cp]
  else if cp < 2048 then [192 + cp / 64, 128 + cp % 64]
  else if cp < 65536 then [224 + cp / 4096, 128 + cp / 64 % 64, 128 + cp % 64]
  else [240 + cp / 262144, 128 + cp / 4096 % 64, 128 + cp / 64 % 64, 128 + cp % 64]

/-- The simple escape table of json__decode_string (lines 1017-1048):
quote, backslash, slash, b, f, n, r, t; anything else is a syntax error. -/
def escChar? (c : Nat) : Option Nat :=
  if c = 34 then some 34
  else if c = 92 then some 92
  else if c = 47 then some 47
  else if c = 98 then some 8
  else if c = 102 then some 12
  else if c = 110 then some 10
  else if c = 114 then some 13
  else if c = 116 then some 9
  else none

/-- The scanning loop of json__decode_string (lines 864-1078), position e
in the input s, accumulated output buffer buf.  One fuel unit is spent per
iteration.  All failure returns carry the error code set by the matching
JSON_PARSER_ERROR call in the C code.  Buffer reallocation is assumed to
succeed and does not affect the contents.  On loop exit the unterminated
string check of line 1080 applies; on success the pair of the decoded
bytes and the position one past the closing quote is returned. -/
def jdsLoop : Nat → List Nat → Nat → List Nat → Except ErrCode (List Nat × Nat)
  | 0, _, _, _ => .error .fuelOut
  | fuel + 1, s, e, buf =>
    if e < s.length ∧ s.getD e 0 ≠ 34 then
      if s.getD e 0 = 92 then
        -- escape sequence: end++ then bounds check (lines 865-871)
        let e1 := e + 1
        if e1 ≥ s.length then .error .syn
        else if s.getD e1 0 = 117 then
          -- \uXXXX escape (lines 873-1015)
          let e2 := e1 + 1
          if e2 + 3 ≥ s.length then .error .syn
          else
            match parseHex4 s e2 with
            | none => .error .syn
            | some cp =>
              if 55296 ≤ cp ∧ cp ≤ 56319 then
                -- high surrogate (lines 902-949)
                let e3 := e2 + 4
                if e3 + 1 ≥ s.length ∨ s.getD e3 0 ≠ 92 ∨ s.getD (e3 + 1) 0 ≠ 117 then
                  .error .syn
                else
                  let e4 := e3 + 2
                  if e4 + 3 ≥ s.length then .error .syn
                  else
                    match parseHex4 s e4 with
                    | none => .error .syn
                    | some lo =>
                      if lo < 56320 ∨ 57343 < lo then .error .syn
                      else
                        jdsLoop fuel s (e4 + 4)
                          (buf ++ utf8Enc (65536 + (cp - 55296) * 1024 + (lo - 56320)))
              else
                jdsLoop fuel s (e2 + 4) (buf ++ utf8Enc cp)
        else
          match escChar? (s.getD e1 0) with
          | none => .error .syn
          | some ec => jdsLoop fuel s (e1 + 1) (buf ++ [ec])
      else
        jdsLoop fuel s (e + 1) (buf ++ [s.getD e 0])
    else if e = s.length then .error .syn
    else .ok (buf, e + 1)

/-- json__decode_string (src/json.h lines 851-1094): scan from the
character after the opening quote at the parser position pos.  The fuel
s.length + 1 dominates the number of loop iterations, each of which
advances the scan position. -/
def jsonDecodeStringR (s : List Nat) (pos : Nat) : Except ErrCode (List Nat × Nat) :=
  jdsLoop (s.length + 1) s (pos + 1) []

/-! ## Growable containers (json_array_push, json_object_set and their
relatives; JSON_ARRAY_INITIAL_CAPACITY = JSON_OBJECT_INITIAL_CAPACITY = 1,
both multipliers = 2, both thresholds = 1, src/json.h lines 76-138). -/

/-- json_array_push (src/json.h lines 1919-1944) with an explicit outcome
for the json_realloc call: when the length has reached
capacity * JSON_ARRAY_CAPACITY_THRESHOLD the item array grows to
capacity * JSON_ARRAY_CAPACITY_MULTIPLIER (or JSON_ARRAY_INITIAL_CAPACITY
when the capacity is 0); a failed reallocation returns -1 and leaves the
array untouched.  The int return value of the C function is the second
component. -/
def jsonArrayPush (allocOk : Bool) (cap : Nat) (items : List JValue) (v : JValue) :
    (Nat × List JValue) × Int :=
  if items.length ≥ cap then
    if allocOk then ((if 0 < cap then cap * 2 else 1, items ++ [v]), 0)
    else ((cap, items), -1)
  else ((cap, items ++ [v]), 0)

/-- Successful-allocation array push, the form used by the decoder
(json__decode_array calls json_array_push after a successful item parse). -/
def jarrPush (cap : Nat) (items : List JValue) (v : JValue) : Nat × List JValue :=
  (jsonArrayPush true cap items v).1

/-- json_array_remove (src/json.h lines 1893-1912): deep-free the value at
the index (freeing is not modelled), shift all following items left with
the loop for i from index to length-2, and decrement the length — the
decrement is unconditional in the source.  For an in-range index this is
eraseIdx.  For index at or past the length the free dispatch reads
items[index] beyond the live length (a stale or out-of-bounds pointer,
undefined behaviour in C, which a value-level model cannot represent), the
shift loop body never runs, and the length decrement alone takes effect:
the last item leaves the live window, rendered here as dropLast.  The
capacity is unchanged. -/
def jsonArrayRemove (cap : Nat) (items : List JValue) (index : Nat) : Nat × List JValue :=
  (cap, if index < items.length then items.eraseIdx index else items.dropLast)

/-- One pass of the json_array_clear loop (src/json.h lines 1955-1962),
with the iterator cursor carried explicitly.  While iter is below the
length, json_array_iter yields items[iter] and post-increments iter; the
call json_array_remove(array, iter--) then passes that post-incremented
value (iter + 1 of the loop head) and post-decrements the cursor back, so
the recursive call continues with the same iter.  Since iter starts at 0
and is restored each pass, every pass removes index 1: the first element
is never the one freed, and the final pass on a one-element array passes
index 1 = length to json_array_remove, whose free dispatch reads past the
live length (see jsonArrayRemove) while its length decrement still empties
the array.  Each pass shortens the items by exactly one, so the fuel
items.length + 1 supplied by jsonArrayClear below always suffices. -/
def jsonArrayClearGo : Nat → Nat → Nat → List JValue → Nat × List JValue
  | 0, _, cap, items => (cap, items)
  | fuel + 1, iter, cap, items =>
    if iter < items.length then
      jsonArrayClearGo fuel iter (jsonArrayRemove cap items (iter + 1)).1
        (jsonArrayRemove cap items (iter + 1)).2
    else (cap, items)

/-- json_array_clear (src/json.h lines 1955-1962): the iterator loop of
jsonArrayClearGo started at cursor 0. -/
def jsonArrayClear (cap : Nat) (items : List JValue) : Nat × List JValue :=
  jsonArrayClearGo (items.length + 1) 0 cap items

/-- Replace step of the linear scan of json_object_set (src/json.h lines
1707-1713): the first entry whose stored key equals the new key (as
NUL-terminated C strings, json__streq) gets the new value, the old value
is deep-freed (not modelled) and the key is kept. -/
def jobjReplace : List (List Nat × JValue) → List Nat → JValue →
    Option (List (List Nat × JValue))
  | [], _, _ => none
  | (k, w) :: t, key, v =>
    if json_streq k key then some ((k, v) :: t)
    else (jobjReplace t key v).map (fun l => (k, w) :: l)

/-- json_object_set (src/json.h lines 1689-1727) on the successful
allocation path, the form used by json__decode_object: grow the entry
array first when n_items has reached the capacity, then either replace the
value of an existing equal key or append a new entry whose key is a copy
of the first strlen(key) bytes of the given key (strncpy at line 1722
stops at a NUL byte, hence the takeWhile). -/
def jsonObjectSetOk (cap : Nat) (items : List (List Nat × JValue))
    (key : List Nat) (v : JValue) : Nat × List (List Nat × JValue) :=
  let cap2 := if items.length ≥ cap then (if 0 < cap then cap * 2 else 1) else cap
  match jobjReplace items key v with
  | some l => (cap2, l)
  | none => (cap2, items ++ [(key.takeWhile (· ≠ 0), v)])

/-! ## The mutually recursive value/array/object decoder
(json__decode_value lines 1289-1325, json__decode_array lines 1166-1219,
json__decode_object lines 1221-1287 of src/json.h).  One fuel unit is
spent on every call.  The mutual recursion is packaged as a single
primitive recursion on the fuel (a bundle of the five routines, stepped
once per fuel unit) so that every definition is kernel-computable; the
wrappers below pass ample fuel. -/

/-- Bundle of the mutually recursive parsing routines at a fixed fuel:
json__decode_value, json__decode_array, the loop of json__decode_array,
json__decode_object and the loop of json__decode_object. -/
structure DecSet where
  value : List Nat → Nat → Except ErrCode (JValue × Nat)
  arr : List Nat → Nat → Except ErrCode (JValue × Nat)
  arrLoop : List Nat → Nat → Nat → List JValue → Except ErrCode (JValue × Nat)
  obj : List Nat → Nat → Except ErrCode (JValue × Nat)
  objLoop : List Nat → Nat → Nat → List (List Nat × JValue) → Except ErrCode (JValue × Nat)

/-- Out-of-fuel bundle. -/
def decZero : DecSet where
  value _ _ := .error .fuelOut
  arr _ _ := .error .fuelOut
  arrLoop _ _ _ _ := .error .fuelOut
  obj _ _ := .error .fuelOut
  objLoop _ _ _ _ := .error .fuelOut

/-- One step of the decoder bundle: the bodies of the five C routines,
with every (mutually) recursive call going through the bundle p of the
previous fuel stage.

value is json__decode_value (src/json.h lines 1289-1325): dispatch on the
current character; quote, bracket and brace go to the string, array and
object parsers; the literals true, false and null are matched with
json__streqn against the text at the current position with limit 4 (the
limit the C code passes for all three literals); everything else falls
through to json__decode_number.  The C code reads input[position], which
for the strlen-delimited buffer of json_decode is the terminating NUL when
position = length; List.getD with default 0 models this.

arr is json__decode_array (lines 1166-1219): EOF check, opening bracket
check, array initialisation, the empty-array fast path of line 1181, then
the item loop arrLoop (lines 1187-1218): while the position is in range
and the current character is not a closing bracket, skip whitespace, parse
one value, push it, skip whitespace and skip one comma if present; after
the loop the closing bracket is required.

obj is json__decode_object (lines 1221-1287): initialise the object, step
past the opening brace, skip whitespace, then the entry loop objLoop
(lines 1229-1277): while the position is in range and the current
character is not a closing brace, skip whitespace, require a quote, parse
the key string, skip whitespace, require a colon, skip whitespace, parse
one value, set it on the object, skip whitespace and skip one comma if
present.  A failed key parse or a failed value parse is rewrapped as
JSON_ERROR_SYNTAX by the JSON_PARSER_ERROR calls at lines 1239 and 1262,
overwriting the inner error code.  After the loop the closing brace is
required. -/
def decStep (p : DecSet) : DecSet where
  value s pos :=
    let c := s.getD pos 0
    if c = 34 then
      match jsonDecodeStringR s pos with
      | .error e => .error e
      | .ok (b, q) => .ok (.string b, q)
    else if c = 91 then p.arr s pos
    else if c = 123 then p.obj s pos
    else if json_streqn (s.drop pos) (str "true") 4 then .ok (.boolean true, pos + 4)
    else if json_streqn (s.drop pos) (str "false") 4 then .ok (.boolean false, pos + 5)
    else if json_streqn (s.drop pos) (str "null") 4 then .ok (.null, pos + 4)
    else
      match jsonDecodeNumberR (s.drop pos) with
      | .error e => .error e
      | .ok (q, r4) => .ok (.number q, pos + ((s.drop pos).length - r4.length))
  arr s pos :=
    if s.length ≤ pos then .error .eof
    else if s.getD pos 0 ≠ 91 then .error .syn
    else if pos + 1 < s.length ∧ s.getD (pos + 1) 0 = 93 then .ok (.array 0 [], pos + 2)
    else p.arrLoop s (pos + 1) 0 []
  arrLoop s pos cap items :=
    if pos < s.length ∧ s.getD pos 0 ≠ 93 then
      let pos1 := parseWS s pos
      match p.value s pos1 with
      | .error e => .error e
      | .ok (v, pos2) =>
        let a := jarrPush cap items v
        let pos3 := parseWS s pos2
        let pos4 := if pos3 < s.length ∧ s.getD pos3 0 = 44 then pos3 + 1 else pos3
        p.arrLoop s pos4 a.1 a.2
    else if s.length ≤ pos ∨ s.getD pos 0 ≠ 93 then .error .syn
    else .ok (.array cap items, pos + 1)
  obj s pos := p.objLoop s (parseWS s (pos + 1)) 0 []
  objLoop s pos cap items :=
    if pos < s.length ∧ s.getD pos 0 ≠ 125 then
      let pos1 := parseWS s pos
      if s.getD pos1 0 ≠ 34 then .error .syn
      else
        match jsonDecodeStringR s pos1 with
        | .error _ => .error .syn
        | .ok (key, pos2) =>
          let pos3 := parseWS s pos2
          if s.length ≤ pos3 ∨ s.getD pos3 0 ≠ 58 then .error .syn
          else
            let pos4 := parseWS s (pos3 + 1)
            match p.value s pos4 with
            | .error _ => .error .syn
            | .ok (v, pos5) =>
              let o := jsonObjectSetOk cap items key v
              let pos6 := parseWS s pos5
              let pos7 := if pos6 < s.length ∧ s.getD pos6 0 = 44 then pos6 + 1 else pos6
              p.objLoop s pos7 o.1 o.2
    else if s.length ≤ pos ∨ s.getD pos 0 ≠ 125 then .error .syn
    else .ok (.object cap items, pos + 1)

/-- Decoder bundle at a given fuel. -/
def decoders : Nat → DecSet
  | 0 => decZero
  | fuel + 1 => decStep (decoders fuel)

/-- json__decode_value at a given fuel (see decStep). -/
def jsonDecodeValue (fuel : Nat) (s : List Nat) (pos : Nat) : Except ErrCode (JValue × Nat) :=
  (decoders fuel).value s pos

/-- json__decode_array at a given fuel (see decStep). -/
def jsonDecodeArray (fuel : Nat) (s : List Nat) (pos : Nat) : Except ErrCode (JValue × Nat) :=
  (decoders fuel).arr s pos

/-- json__decode_object at a given fuel (see decStep). -/
def jsonDecodeObject (fuel : Nat) (s : List Nat) (pos : Nat) : Except ErrCode (JValue × Nat) :=
  (decoders fuel).obj s pos

/-- json_decode_with_length as called by json_decode (src/json.h lines
1327-1365): run json__decode_value at position 0 and return the value and
the final position; the final position is not compared with the length.
The fuel 2 * length + 16 exceeds the total number of parser calls, each of
which either consumes input or fails. -/
def jsonDecodeRun (s : List Nat) : Except ErrCode (JValue × Nat) :=
  jsonDecodeValue (2 * s.length + 16) s 0

/-- json_decode (src/json.h lines 1362-1365): NULL on failure, the decoded
value otherwise.  The trailing input after the decoded value is ignored. -/
def jsonDecode (s : List Nat) : Option JValue :=
  match jsonDecodeRun s with
  | .ok (v, _) => some v
  | .error _ => none

/-! ## Encoding (json_encode and helpers, src/json.h lines 1367-1655) -/

/-- Uppercase hexadecimal digit character, the table
"0123456789ABCDEF" of src/json.h line 1523. -/
def hexUp (n : Nat) : Nat := if n < 10 then 48 + n else 55 + n

/-- The escape sequence emitted for an invalid UTF-8 byte by
json__encode_string: backslash, u, F, F, F, D. -/
def fffdEsc : List Nat := [92, 117, 70, 70, 70, 68]

/-- The character loop of json__encode_string (src/json.h lines
1496-1591), position i in the byte list s.  Byte-mask comparisons on
bytes are rendered arithmetically: (c AND 0xE0) = 0xC0, (c AND 0xF0) =
0xE0, (c AND 0xF8) = 0xF0 and (c AND 0xC0) = 0x80 become c / 32 = 6,
c / 16 = 14, c / 8 = 30 and c / 64 = 2 (equivalent for byte values).
The C code sets bytes = str + i and then tests bytes[i + k], so the
continuation bytes it inspects live at str[2i + k], not at str[i + k];
the model reproduces these indices exactly (getD reads 0 where the C
reads out of bounds, which is undefined behaviour; the theorems below
use only inputs whose reads stay in bounds).  The bytes copied on the
valid path are str[i + k] via str[++i]. -/
def jesLoop : Nat → List Nat → Nat → List Nat
  | 0, _, _ => []
  | fuel + 1, s, i =>
    if i < s.length then
      let c := s.getD i 0
      if c = 34 || c = 92 || c = 47 then 92 :: c :: jesLoop fuel s (i + 1)
      else if c = 8 then 92 :: 98 :: jesLoop fuel s (i + 1)
      else if c = 12 then 92 :: 102 :: jesLoop fuel s (i + 1)
      else if c = 10 then 92 :: 110 :: jesLoop fuel s (i + 1)
      else if c = 13 then 92 :: 114 :: jesLoop fuel s (i + 1)
      else if c = 9 then 92 :: 116 :: jesLoop fuel s (i + 1)
      else if c < 32 then
        92 :: 117 :: 48 :: 48 :: hexUp (c / 16) :: hexUp (c % 16) :: jesLoop fuel s (i + 1)
      else if c < 128 then c :: jesLoop fuel s (i + 1)
      else if c / 32 = 6 then
        if i + 1 ≥ s.length || (s.getD (i + (i + 1)) 0) / 64 ≠ 2 then
          fffdEsc ++ jesLoop fuel s (i + 1)
        else c :: s.getD (i + 1) 0 :: jesLoop fuel s (i + 2)
      else if c / 16 = 14 then
        if i + 2 ≥ s.length || (s.getD (i + (i + 1)) 0) / 64 ≠ 2
            || (s.getD (i + (i + 2)) 0) / 64 ≠ 2 then
          fffdEsc ++ jesLoop fuel s (i + 1)
        else c :: s.getD (i + 1) 0 :: s.getD (i + 2) 0 :: jesLoop fuel s (i + 3)
      else if c / 8 = 30 then
        if i + 3 ≥ s.length || (s.getD (i + (i + 1)) 0) / 64 ≠ 2
            || (s.getD (i + (i + 2)) 0) / 64 ≠ 2 || (s.getD (i + (i + 3)) 0) / 64 ≠ 2 then
          fffdEsc ++ jesLoop fuel s (i + 1)
        else c :: s.getD (i + 1) 0 :: s.getD (i + 2) 0 :: s.getD (i + 3) 0 :: jesLoop fuel s (i + 4)
      else fffdEsc ++ jesLoop fuel s (i + 1)
    else []

/-- json__encode_string (src/json.h lines 1483-1599): opening quote, the
character loop over the string payload, closing quote.  The final
realloc-to-size does not change the contents. -/
def jsonEncodeString (s : List Nat) : List Nat :=
  34 :: jesLoop (s.length + 1) s 0 ++ [34]

/-- Bundle of the mutually recursive encoding routines at a fixed fuel
(packaged as a primitive recursion on the fuel for kernel computability,
like the decoder bundle): json_encode itself, the item loop of
json__encode_array and the entry loop of json__encode_object. -/
structure EncSet where
  value : (ℚ → List Nat) → JValue → List Nat
  items : (ℚ → List Nat) → Bool → List JValue → List Nat
  entries : (ℚ → List Nat) → Bool → List (List Nat × JValue) → List Nat

/-- Out-of-fuel encoder bundle (never reached at the fuels used below). -/
def encZero : EncSet where
  value _ _ := []
  items _ _ _ := []
  entries _ _ _ := []

/-- One step of the encoder bundle.

value is json_encode (src/json.h lines 1601-1655) with the number
formatter as an explicit parameter standing for snprintf with format
%.17g (binary64 formatting is outside the embedding).  Strings go through
json__encode_string; booleans and null are the fixed literals; arrays and
objects go through json__encode_array (lines 1367-1423) and
json__encode_object (lines 1425-1481).

items is the item loop of json__encode_array (lines 1385-1417): a comma
before every item except the first, then the encoded item.

entries is the entry loop of json__encode_object (lines 1437-1475): for
every entry a quote, the key bytes written verbatim (no escaping is
applied to keys), a quote, a colon and the encoded value, with a comma
between entries (the C code emits the comma after every entry but the
last, which yields the same output as a comma before every entry but the
first). -/
def encStep (p : EncSet) : EncSet where
  value nf v :=
    match v with
    | .null => str "null"
    | .boolean b => if b then str "true" else str "false"
    | .number q => nf q
    | .string bs => jsonEncodeString bs
    | .array _ items => 91 :: p.items nf true items ++ [93]
    | .object _ entries => 123 :: p.entries nf true entries ++ [125]
  items nf first l :=
    match l with
    | [] => []
    | v :: t => (if first then [] else [44]) ++ p.value nf v ++ p.items nf false t
  entries nf first l :=
    match l with
    | [] => []
    | e :: t =>
      (if first then [] else [44]) ++ 34 :: e.1 ++ 34 :: 58 :: p.value nf e.2
        ++ p.entries nf false t

/-- Encoder bundle at a given fuel. -/
def encoders : Nat → EncSet
  | 0 => encZero
  | fuel + 1 => encStep (encoders fuel)

/-- json_encode at a given fuel (see encStep).  The fuel only needs to
exceed the number of nodes of the value; all theorems below quantify over
the fuel or use a visibly sufficient one. -/
def jsonEncodeF (fuel : Nat) (nf : ℚ → List Nat) (v : JValue) : List Nat :=
  (encoders fuel).value nf v

/-! ## json_object_set with explicit allocation outcomes (for the claim
about failure atomicity).  The C object stores an array of pointers to
entry structs; a slot that has been reserved by the n_items increment but
whose entry allocation failed holds an invalid pointer, modelled as
none. -/

/-- One entry of the C object store: an owned key copy and the value. -/
structure CEntry where
  key : List Nat
  value : JValue

/-- The object payload as laid out by the C code: the allocated slot array
(length = capacity), the n_items counter, and the capacity. -/
structure RawObj where
  capacity : Nat
  nItems : Nat
  slots : List (Option CEntry)

/-- The replace scan of json_object_set (lines 1707-1713) over the first
n slots.  A none slot would be a garbage pointer dereference in C and
cannot occur for an object built by the API; it is treated as no match. -/
def rawReplace : List (Option CEntry) → Nat → List Nat → JValue → Option (List (Option CEntry))
  | _, 0, _, _ => none
  | [], _, _, _ => none
  | some e :: t, n + 1, key, v =>
    if json_streq e.key key then some (some ⟨e.key, v⟩ :: t)
    else (rawReplace t n key v).map (fun l => some e :: l)
  | none :: t, n + 1, key, v => (rawReplace t n key v).map (fun l => none :: l)

/-- json_object_set (src/json.h lines 1689-1727) with explicit outcomes
for the two checked allocations: reallocOk for the json_realloc of the
slot array (line 1700, failure returns -1 with the object unchanged) and
entryOk for the json_alloc of the new entry struct (line 1716, failure
returns -1 after n_items has already been incremented at line 1715).  The
json_alloc of the key copy at line 1721 is not checked by the C code at
all (a failure there dereferences NULL, undefined behaviour) and is
assumed to succeed.  The key copy keeps the first strlen(key) bytes. -/
def jsonObjectSetRaw (reallocOk entryOk : Bool) (o : RawObj) (key : List Nat) (v : JValue) :
    RawObj × Int :=
  if o.nItems ≥ o.capacity then
    if reallocOk then
      let cap2 := if 0 < o.capacity then o.capacity * 2 else 1
      let o2 : RawObj := ⟨cap2, o.nItems, o.slots ++ List.replicate (cap2 - o.capacity) none⟩
      jsonObjectSetRawScan entryOk o2 key v
    else (o, -1)
  else jsonObjectSetRawScan entryOk o key v

where
  /-- The scan-and-append tail of json_object_set (lines 1707-1726). -/
  jsonObjectSetRawScan (entryOk : Bool) (o : RawObj) (key : List Nat) (v : JValue) :
      RawObj × Int :=
    match rawReplace o.slots o.nItems key v with
    | some l => (⟨o.capacity, o.nItems, l⟩, 0)
    | none =>
      let idx := o.nItems
      let o2 : RawObj := ⟨o.capacity, o.nItems + 1, o.slots⟩
      if entryOk then
        (⟨o2.capacity, o2.nItems, o2.slots.set idx (some ⟨key.takeWhile (· ≠ 0), v⟩)⟩, 0)
      else (o2, -1)

/-! ## Specification-side definitions -/

/-- Continuation byte pattern of UTF-8 for a byte value: the top two bits
are 10, i.e. the value lies in 128..191. -/
def isContB (c : Nat) : Bool := 128 ≤ c && c < 192

/-- String-encoding function written from the specification text of the
claim about json__encode_string (for comparison with the embedded code):
escape quote, backslash and slash with a backslash; emit the named escapes
for backspace, form feed, newline, carriage return and tab; emit
backslash-u-0-0-XX for every other byte below 32; pass ASCII bytes
through; for every byte at or above 128, validate the UTF-8 multi-byte
sequence by the continuation-byte pattern of the immediately following
bytes, passing the sequence through verbatim when valid and emitting the
replacement escape for the offending lead byte when invalid.  The fuel
argument (one unit per consumed lead byte) only serves structural
recursion; the wrapper passes more fuel than the list length. -/
def encStringSpecGo : Nat → List Nat → List Nat
  | 0, _ => []
  | _ + 1, [] => []
  | fuel + 1, c :: t =>
    if c = 34 || c = 92 || c = 47 then 92 :: c :: encStringSpecGo fuel t
    else if c = 8 then 92 :: 98 :: encStringSpecGo fuel t
    else if c = 12 then 92 :: 102 :: encStringSpecGo fuel t
    else if c = 10 then 92 :: 110 :: encStringSpecGo fuel t
    else if c = 13 then 92 :: 114 :: encStringSpecGo fuel t
    else if c = 9 then 92 :: 116 :: encStringSpecGo fuel t
    else if c < 32 then
      92 :: 117 :: 48 :: 48 :: hexUp (c / 16) :: hexUp (c % 16) :: encStringSpecGo fuel t
    else if c < 128 then c :: encStringSpecGo fuel t
    else if 192 ≤ c && c < 224 then
      if 1 ≤ t.length && isContB (t.getD 0 0) then
        c :: t.getD 0 0 :: encStringSpecGo fuel (t.drop 1)
      else fffdEsc ++ encStringSpecGo fuel t
    else if 224 ≤ c && c < 240 then
      if 2 ≤ t.length && isContB (t.getD 0 0) && isContB (t.getD 1 0) then
        c :: t.getD 0 0 :: t.getD 1 0 :: encStringSpecGo fuel (t.drop 2)
      else fffdEsc ++ encStringSpecGo fuel t
    else if 240 ≤ c && c < 248 then
      if 3 ≤ t.length && isContB (t.getD 0 0) && isContB (t.getD 1 0)
          && isContB (t.getD 2 0) then
        c :: t.getD 0 0 :: t.getD 1 0 :: t.getD 2 0 :: encStringSpecGo fuel (t.drop 3)
      else fffdEsc ++ encStringSpecGo fuel t
    else fffdEsc ++ encStringSpecGo fuel t

/-- Specification-side json__encode_string: quotes around the escaped
body. -/
def encStringSpec (s : List Nat) : List Nat :=
  34 :: encStringSpecGo (s.length + 1) s ++ [34]

/-- json_array_init (src/json.h lines 1801-1806): length 0, capacity 0,
no items. -/
def jsonArrayInit : Nat × List JValue := (0, [])

/-- Pushing a sequence of values one by one with json_array_push on the
successful allocation path. -/
def jsonArrayPushAll (a : Nat × List JValue) (vs : List JValue) : Nat × List JValue :=
  vs.foldl (fun acc v => (jsonArrayPush true acc.1 acc.2 v).1) a

/-- Well-formedness of a decoded value: in every array and object of the
tree the number of items is at most the recorded capacity. -/
inductive JValueWF : JValue → Prop where
  | null : JValueWF .null
  | boolean (b : Bool) : JValueWF (.boolean b)
  | number (q : ℚ) : JValueWF (.number q)
  | string (bs : List Nat) : JValueWF (.string bs)
  | array (cap : Nat) (items : List JValue) :
      items.length ≤ cap → (∀ x ∈ items, JValueWF x) → JValueWF (.array cap items)
  | object (cap : Nat) (items : List (List Nat × JValue)) :
      items.length ≤ cap → (∀ e ∈ items, JValueWF e.2) → JValueWF (.object cap items)

/-- Greedy integer part of the strict JSON number grammar, written from
the specification text: the maximal run of digits must be either the lone
digit 0 or start with a nonzero digit; the rest of the input follows. -/
def tokInt (b : List Nat) : Option (List Nat) :=
  if b.takeWhile isDigitB = [48] ∨ (b.takeWhile isDigitB ≠ [] ∧ cstrHead b ≠ 48) then
    some (b.drop (b.takeWhile isDigitB).length)
  else none

/-- Greedy fraction part of the strict JSON number grammar: an optional
dot followed by one or more digits. -/
def tokFrac (r : List Nat) : Option (List Nat) :=
  if cstrHead r = 46 then
    if r.tail.takeWhile isDigitB = [] then none
    else some (r.tail.drop (r.tail.takeWhile isDigitB).length)
  else some r

/-- Greedy exponent part of the strict JSON number grammar: an optional
e or E, an optional sign, then one or more digits. -/
def tokExp (r : List Nat) : Option (List Nat) :=
  if cstrHead r = 101 ∨ cstrHead r = 69 then
    if (if cstrHead r.tail = 45 ∨ cstrHead r.tail = 43 then r.tail.tail
        else r.tail).takeWhile isDigitB = [] then none
    else
      some ((if cstrHead r.tail = 45 ∨ cstrHead r.tail = 43 then r.tail.tail
        else r.tail).drop ((if cstrHead r.tail = 45 ∨ cstrHead r.tail = 43 then r.tail.tail
          else r.tail).takeWhile isDigitB).length)
  else some r

/-- The strict JSON number grammar of the specification as a whole-string
matcher: an optional single leading minus sign, an integer part that is a
lone 0 or a nonzero digit followed by digits, an optional dot followed by
one or more digits, and an optional exponent with optional sign and one or
more digits, with nothing left over. -/
def jsonNumToken (s : List Nat) : Bool :=
  let b := if cstrHead s = 45 then s.tail else s
  match tokInt b with
  | none => false
  | some r1 =>
    match tokFrac r1 with
    | none => false
    | some r2 =>
      match tokExp r2 with
      | none => false
      | some r3 => r3.isEmpty

/-! ## Theorems for the claims -/

/-- C6: the string-encoding claim fails on the code.  json__encode_string
sets bytes = str + i (src/json.h line 1531) and then tests
bytes[i + 1] .. bytes[i + 3], i.e. str[2i + 1] .. str[2i + 3], so the
continuation-byte validation inspects the wrong positions for every
multi-byte lead at i > 0.  On the four-byte payload a, C2, z, 80 the lead
C2 at index 1 is followed by the non-continuation byte z, so the claim
requires the replacement escape for C2; the code instead checks
str[3] = 80 (a continuation byte), accepts the sequence as valid and
copies C2 and z through verbatim.  The first conjunct evaluates the
embedded code on the failing input, the second evaluates the
specification-side encoder, and they differ. -/
theorem c6_encode_string_code_bug :
    jsonEncodeString [97, 194, 122, 128]
      = [34, 97, 194, 122, 92, 117, 70, 70, 70, 68, 34]
    ∧ encStringSpec [97, 194, 122, 128]
      = [34, 97, 92, 117, 70, 70, 70, 68, 122, 92, 117, 70, 70, 70, 68, 34]
    ∧ jsonEncodeString [97, 194, 122, 128] ≠ encStringSpec [97, 194, 122, 128] := by
  have h1 : jsonEncodeString [97, 194, 122, 128]
      = [34, 97, 194, 122, 92, 117, 70, 70, 70, 68, 34] := rfl
  have h2 : encStringSpec [97, 194, 122, 128]
      = [34, 97, 92, 117, 70, 70, 70, 68, 122, 92, 117, 70, 70, 70, 68, 34] := rfl
  refine ⟨h1, h2, ?_⟩
  rw [h1, h2]
  decide

/-- C1: the round-trip claim fails on the code, which is a bug relative to
the specified contract.  First, the valid document consisting of a bracket,
a space and a closing bracket fails to decode: json__decode_array skips
whitespace inside its loop and then calls json__decode_value on the
closing bracket, which falls through to json__decode_number and yields
JSON_ERROR_INVALID_NUMBER.  Second, the valid document with the single key
a-quote-b (escaped as a backslash-quote inside the key) and value null
decodes successfully, but json__encode_object writes the key bytes
verbatim without escaping, so the encoded text contains an unescaped quote
inside the key and fails to re-parse; encode(decode(d)) therefore does not
re-parse to an equal tree (it does not parse at all).  The number
formatter of the encoder is universally quantified and never reached. -/
theorem c1_roundtrip_code_bug :
    jsonDecode (str "[ ]") = none
    ∧ jsonDecodeRun (str "[ ]") = .error .invalidNumber
    ∧ jsonDecode [123, 34, 97, 92, 34, 98, 34, 58, 110, 117, 108, 108, 125]
        = some (.object 1 [([97, 34, 98], .null)])
    ∧ (∀ (fuel : Nat) (nf : ℚ → List Nat),
        jsonEncodeF (fuel + 4) nf (.object 1 [([97, 34, 98], .null)])
          = [123, 34, 97, 34, 98, 34, 58, 110, 117, 108, 108, 125])
    ∧ jsonDecode [123, 34, 97, 34, 98, 34, 58, 110, 117, 108, 108, 125] = none :=
  ⟨rfl, rfl, rfl, fun _ _ => rfl, rfl⟩

/-- C3 counterexample: the claim says the decoder rejects a comma
immediately preceding the closing bracket, but decoding the four-byte
document bracket-one-comma-bracket succeeds (the loop of
json__decode_array skips a comma without checking that a value follows,
and the loop condition then sees the closing bracket). -/
theorem c3_counterexample :
    jsonDecode (str "[1,]") = some (.array 1 [.number (ratOfToken [49])])
    ∧ ratOfToken [49] = 1 := by
  refine ⟨rfl, ?_⟩
  norm_num [ratOfToken, digitsValN, cstrHead, isDigitB]

/-- C3 amended: the decoder accepts a single comma immediately preceding
the closing bracket of an array and the closing brace of an object: the
document bracket-one-comma-bracket decodes to the one-element array
holding the number 1, and the document with entry key a, value 1 and a
trailing comma before the brace decodes to the one-entry object.  (A comma
followed by whitespace before the closing delimiter is still rejected,
because the decoder then tries to parse a value.) -/
theorem c3_amended :
    jsonDecode (str "[1,]") = some (.array 1 [.number (ratOfToken [49])])
    ∧ jsonDecode [123, 34, 97, 34, 58, 49, 44, 125]
        = some (.object 1 [([97], .number (ratOfToken [49]))])
    ∧ ratOfToken [49] = 1 := by
  refine ⟨rfl, rfl, ?_⟩
  norm_num [ratOfToken, digitsValN, cstrHead, isDigitB]

/-- C7: the literal matching claim fails on the code.  json__decode_value
passes limit 4 to json__streqn for the five-character literal false
(src/json.h line 1305), so only the first four characters f, a, l, s are
ever compared; the input falsy is decoded as the boolean false, and the
position is advanced by 5 over the never-checked fifth byte. -/
theorem c7_literal_match_code_bug :
    json_streqn (str "falsy") (str "false") 4 = true
    ∧ jsonDecodeRun (str "falsy") = .ok (.boolean false, 5)
    ∧ jsonDecode (str "falsy") = some (.boolean false) :=
  ⟨rfl, rfl, rfl⟩

/-- C8: the object-set atomicity claim fails on the code.  On a fresh
empty object (capacity 0) with a successful slot-array reallocation but a
failed allocation of the new entry struct, json_object_set increments
n_items at line 1715 before checking the allocation at line 1717 and then
returns -1: the call fails, yet the entry count has changed from 0 to 1
(and the reserved slot holds an invalid entry pointer). -/
theorem c8_object_set_code_bug :
    jsonObjectSetRaw true false ⟨0, 0, []⟩ (str "a") .null = (⟨1, 1, [none]⟩, -1)
    ∧ (jsonObjectSetRaw true false ⟨0, 0, []⟩ (str "a") .null).1.nItems
        ≠ (0 : Nat) :=
  ⟨rfl, by decide⟩

/-- C10 counterexample: the claim says that every input with a proper
prefix parsing as a complete JSON value decodes successfully to the value
of that prefix.  The input 0x1A has the proper prefix 0, which decodes to
the number 0, yet decoding 0x1A fails: the grammar phase of
json__decode_number accepts only the 0, while strtod consumes the whole
hexadecimal form 0x1A, and the consumption mismatch check of line 1158
raises JSON_ERROR_INVALID_NUMBER. -/
theorem c10_counterexample :
    jsonDecode (str "0x1A") = none
    ∧ jsonDecodeRun (str "0x1A") = .error .invalidNumber
    ∧ (str "0x1A").take 1 = str "0"
    ∧ 1 < (str "0x1A").length
    ∧ jsonDecode (str "0") = some (.number (ratOfToken [48]))
    ∧ ratOfToken [48] = 0 := by
  refine ⟨rfl, rfl, rfl, by decide, rfl, ?_⟩
  norm_num [ratOfToken, digitsValN, cstrHead, isDigitB]

/-- C10 amended: json_decode does not require the whole input to be
consumed — json_decode_with_length never compares the final position with
the length, so a value parsed from the start is returned and the bytes
after it are ignored: the input 1x decodes to the number 1 with final
position 1 of 2, and the input true-bang decodes to the boolean true with
final position 4 of 5.  This does not hold for every input with a parsing
proper prefix, because json__decode_number also lets strtod read past the
accepted token (see the counterexample 0x1A). -/
theorem c10_amended :
    jsonDecodeRun (str "1x") = .ok (.number (ratOfToken [49]), 1)
    ∧ 1 < (str "1x").length
    ∧ jsonDecode (str "1x") = some (.number (ratOfToken [49]))
    ∧ ratOfToken [49] = 1
    ∧ jsonDecodeRun (str "true!") = .ok (.boolean true, 4)
    ∧ 4 < (str "true!").length
    ∧ jsonDecode (str "true!") = some (.boolean true) := by
  refine ⟨rfl, by decide, rfl, ?_, rfl, by decide, rfl⟩
  norm_num [ratOfToken, digitsValN, cstrHead, isDigitB]


lemma parseHex4_at (s : List Nat) (e : Nat) (v1 v2 v3 v4 : Nat)
    (h1 : hexVal? (s.getD e 0) = some v1)
    (h2 : hexVal? (s.getD (e + 1) 0) = some v2)
    (h3 : hexVal? (s.getD (e + 2) 0) = some v3)
    (h4 : hexVal? (s.getD (e + 3) 0) = some v4) :
    parseHex4 s e = some (((v1 * 16 + v2) * 16 + v3) * 16 + v4) := by
  unfold parseHex4
  rw [h1, h2, h3, h4]
  rfl

lemma c4_pair_step (fuel n : Nat) (s buf : List Nat)
    (v1 v2 v3 v4 w1 w2 w3 w4 : Nat)
    (hlen : n + 12 ≤ s.length)
    (hb : s.getD n 0 = 92) (hu : s.getD (n + 1) 0 = 117)
    (h1 : hexVal? (s.getD (n + 2) 0) = some v1)
    (h2 : hexVal? (s.getD (n + 3) 0) = some v2)
    (h3 : hexVal? (s.getD (n + 4) 0) = some v3)
    (h4 : hexVal? (s.getD (n + 5) 0) = some v4)
    (hb2 : s.getD (n + 6) 0 = 92) (hu2 : s.getD (n + 7) 0 = 117)
    (g1 : hexVal? (s.getD (n + 8) 0) = some w1)
    (g2 : hexVal? (s.getD (n + 9) 0) = some w2)
    (g3 : hexVal? (s.getD (n + 10) 0) = some w3)
    (g4 : hexVal? (s.getD (n + 11) 0) = some w4)
    (hH1 : 55296 ≤ ((v1 * 16 + v2) * 16 + v3) * 16 + v4)
    (hH2 : ((v1 * 16 + v2) * 16 + v3) * 16 + v4 ≤ 56319)
    (hL1 : 56320 ≤ ((w1 * 16 + w2) * 16 + w3) * 16 + w4)
    (hL2 : ((w1 * 16 + w2) * 16 + w3) * 16 + w4 ≤ 57343) :
    jdsLoop (fuel + 1) s n buf
      = jdsLoop fuel s (n + 12)
          (buf ++ utf8Enc (65536 + (((v1 * 16 + v2) * 16 + v3) * 16 + v4 - 55296) * 1024
            + (((w1 * 16 + w2) * 16 + w3) * 16 + w4 - 56320))) := by
  have hp1 : parseHex4 s (n + 1 + 1) = some (((v1 * 16 + v2) * 16 + v3) * 16 + v4) := by
    rw [show n + 1 + 1 = n + 2 from by omega]
    exact parseHex4_at s (n + 2) v1 v2 v3 v4 h1
      (by rw [show n + 2 + 1 = n + 3 from by omega]; exact h2)
      (by rw [show n + 2 + 2 = n + 4 from by omega]; exact h3)
      (by rw [show n + 2 + 3 = n + 5 from by omega]; exact h4)
  have hp2 : parseHex4 s (n + 1 + 1 + 4 + 2) = some (((w1 * 16 + w2) * 16 + w3) * 16 + w4) := by
    rw [show n + 1 + 1 + 4 + 2 = n + 8 from by omega]
    exact parseHex4_at s (n + 8) w1 w2 w3 w4 g1
      (by rw [show n + 8 + 1 = n + 9 from by omega]; exact g2)
      (by rw [show n + 8 + 2 = n + 10 from by omega]; exact g3)
      (by rw [show n + 8 + 3 = n + 11 from by omega]; exact g4)
  simp only [jdsLoop]
  rw [if_pos (show n < s.length ∧ s.getD n 0 ≠ 34 from ⟨by omega, by omega⟩)]
  rw [if_pos hb]
  rw [if_neg (show ¬ (n + 1 ≥ s.length) from by omega)]
  rw [if_pos hu]
  rw [if_neg (show ¬ (n + 1 + 1 + 3 ≥ s.length) from by omega)]
  simp only [hp1]
  rw [if_pos (⟨hH1, hH2⟩ : _ ∧ _)]
  rw [if_neg (show ¬ (n + 1 + 1 + 4 + 1 ≥ s.length ∨ s.getD (n + 1 + 1 + 4) 0 ≠ 92
      ∨ s.getD (n + 1 + 1 + 4 + 1) 0 ≠ 117) from by
    push_neg
    refine ⟨by omega, ?_, ?_⟩
    · rw [show n + 1 + 1 + 4 = n + 6 from by omega]; exact hb2
    · rw [show n + 1 + 1 + 4 + 1 = n + 7 from by omega]; exact hu2)]
  rw [if_neg (show ¬ (n + 1 + 1 + 4 + 2 + 3 ≥ s.length) from by omega)]
  simp only [hp2]
  rw [if_neg (show ¬ (((w1 * 16 + w2) * 16 + w3) * 16 + w4 < 56320
      ∨ 57343 < ((w1 * 16 + w2) * 16 + w3) * 16 + w4) from by omega)]


lemma c4_bad_low (fuel n : Nat) (s buf : List Nat)
    (v1 v2 v3 v4 w1 w2 w3 w4 : Nat)
    (hlen : n + 12 ≤ s.length)
    (hb : s.getD n 0 = 92) (hu : s.getD (n + 1) 0 = 117)
    (h1 : hexVal? (s.getD (n + 2) 0) = some v1)
    (h2 : hexVal? (s.getD (n + 3) 0) = some v2)
    (h3 : hexVal? (s.getD (n + 4) 0) = some v3)
    (h4 : hexVal? (s.getD (n + 5) 0) = some v4)
    (hb2 : s.getD (n + 6) 0 = 92) (hu2 : s.getD (n + 7) 0 = 117)
    (g1 : hexVal? (s.getD (n + 8) 0) = some w1)
    (g2 : hexVal? (s.getD (n + 9) 0) = some w2)
    (g3 : hexVal? (s.getD (n + 10) 0) = some w3)
    (g4 : hexVal? (s.getD (n + 11) 0) = some w4)
    (hH1 : 55296 ≤ ((v1 * 16 + v2) * 16 + v3) * 16 + v4)
    (hH2 : ((v1 * 16 + v2) * 16 + v3) * 16 + v4 ≤ 56319)
    (hL : ((w1 * 16 + w2) * 16 + w3) * 16 + w4 < 56320
      ∨ 57343 < ((w1 * 16 + w2) * 16 + w3) * 16 + w4) :
    jdsLoop (fuel + 1) s n buf = .error .syn := by
  have hp1 : parseHex4 s (n + 1 + 1) = some (((v1 * 16 + v2) * 16 + v3) * 16 + v4) := by
    rw [show n + 1 + 1 = n + 2 from by omega]
    exact parseHex4_at s (n + 2) v1 v2 v3 v4 h1
      (by rw [show n + 2 + 1 = n + 3 from by omega]; exact h2)
      (by rw [show n + 2 + 2 = n + 4 from by omega]; exact h3)
      (by rw [show n + 2 + 3 = n + 5 from by omega]; exact h4)
  have hp2 : parseHex4 s (n + 1 + 1 + 4 + 2) = some (((w1 * 16 + w2) * 16 + w3) * 16 + w4) := by
    rw [show n + 1 + 1 + 4 + 2 = n + 8 from by omega]
    exact parseHex4_at s (n + 8) w1 w2 w3 w4 g1
      (by rw [show n + 8 + 1 = n + 9 from by omega]; exact g2)
      (by rw [show n + 8 + 2 = n + 10 from by omega]; exact g3)
      (by rw [show n + 8 + 3 = n + 11 from by omega]; exact g4)
  simp only [jdsLoop]
  rw [if_pos (show n < s.length ∧ s.getD n 0 ≠ 34 from ⟨by omega, by omega⟩)]
  rw [if_pos hb]
  rw [if_neg (show ¬ (n + 1 ≥ s.length) from by omega)]
  rw [if_pos hu]
  rw [if_neg (show ¬ (n + 1 + 1 + 3 ≥ s.length) from by omega)]
  simp only [hp1]
  rw [if_pos (⟨hH1, hH2⟩ : _ ∧ _)]
  rw [if_neg (show ¬ (n + 1 + 1 + 4 + 1 ≥ s.length ∨ s.getD (n + 1 + 1 + 4) 0 ≠ 92
      ∨ s.getD (n + 1 + 1 + 4 + 1) 0 ≠ 117) from by
    push_neg
    refine ⟨by omega, ?_, ?_⟩
    · rw [show n + 1 + 1 + 4 = n + 6 from by omega]; exact hb2
    · rw [show n + 1 + 1 + 4 + 1 = n + 7 from by omega]; exact hu2)]
  rw [if_neg (show ¬ (n + 1 + 1 + 4 + 2 + 3 ≥ s.length) from by omega)]
  simp only [hp2]
  rw [if_pos hL]

lemma c4_missing_low (fuel n : Nat) (s buf : List Nat)
    (v1 v2 v3 v4 : Nat)
    (hlen : n + 6 ≤ s.length)
    (hb : s.getD n 0 = 92) (hu : s.getD (n + 1) 0 = 117)
    (h1 : hexVal? (s.getD (n + 2) 0) = some v1)
    (h2 : hexVal? (s.getD (n + 3) 0) = some v2)
    (h3 : hexVal? (s.getD (n + 4) 0) = some v3)
    (h4 : hexVal? (s.getD (n + 5) 0) = some v4)
    (hH1 : 55296 ≤ ((v1 * 16 + v2) * 16 + v3) * 16 + v4)
    (hH2 : ((v1 * 16 + v2) * 16 + v3) * 16 + v4 ≤ 56319)
    (hafter : n + 7 ≥ s.length ∨ s.getD (n + 6) 0 ≠ 92 ∨ s.getD (n + 7) 0 ≠ 117) :
    jdsLoop (fuel + 1) s n buf = .error .syn := by
  have hp1 : parseHex4 s (n + 1 + 1) = some (((v1 * 16 + v2) * 16 + v3) * 16 + v4) := by
    rw [show n + 1 + 1 = n + 2 from by omega]
    exact parseHex4_at s (n + 2) v1 v2 v3 v4 h1
      (by rw [show n + 2 + 1 = n + 3 from by omega]; exact h2)
      (by rw [show n + 2 + 2 = n + 4 from by omega]; exact h3)
      (by rw [show n + 2 + 3 = n + 5 from by omega]; exact h4)
  simp only [jdsLoop]
  rw [if_pos (show n < s.length ∧ s.getD n 0 ≠ 34 from ⟨by omega, by omega⟩)]
  rw [if_pos hb]
  rw [if_neg (show ¬ (n + 1 ≥ s.length) from by omega)]
  rw [if_pos hu]
  rw [if_neg (show ¬ (n + 1 + 1 + 3 ≥ s.length) from by omega)]
  simp only [hp1]
  rw [if_pos (⟨hH1, hH2⟩ : _ ∧ _)]
  rw [show n + 1 + 1 + 4 = n + 6 from by omega]
  rw [show n + 6 + 1 = n + 7 from by omega]
  rw [if_pos hafter]

/-- C4: surrogate-pair handling of json__decode_string, stated at the
scanning loop jdsLoop for an escape at an arbitrary position n of the
string being decoded (the hexadecimal digits are arbitrary spellings with
values v1..v4 and w1..w4).  Writing H for the value of the first escape
and L for the value of the second: (1) when H is a high surrogate
(0xD800-0xDBFF) and it is immediately followed by a backslash-u escape
whose value L is a low surrogate (0xDC00-0xDFFF), the pair is combined as
0x10000 + (H - 0xD800) * 2^10 + (L - 0xDC00), re-encoded as UTF-8 by the
1/2/3/4-byte encoder of the source, appended to the output buffer, and
scanning continues after the twelve escape bytes; (2) with the same H,
a following backslash-u escape whose value is not a low surrogate is a
SYNTAX error; (3) with the same H, input not continuing with a
backslash-u pair at all is a SYNTAX error; (4) concretely, decoding the
document quote backslash-uD83D backslash-uDE00 quote yields the four-byte
UTF-8 string F0 9F 98 80 (U+1F600). -/
theorem c4_surrogate_pairs :
    (∀ (fuel n : Nat) (s buf : List Nat) (v1 v2 v3 v4 w1 w2 w3 w4 : Nat),
      n + 12 ≤ s.length →
      s.getD n 0 = 92 → s.getD (n + 1) 0 = 117 →
      hexVal? (s.getD (n + 2) 0) = some v1 →
      hexVal? (s.getD (n + 3) 0) = some v2 →
      hexVal? (s.getD (n + 4) 0) = some v3 →
      hexVal? (s.getD (n + 5) 0) = some v4 →
      s.getD (n + 6) 0 = 92 → s.getD (n + 7) 0 = 117 →
      hexVal? (s.getD (n + 8) 0) = some w1 →
      hexVal? (s.getD (n + 9) 0) = some w2 →
      hexVal? (s.getD (n + 10) 0) = some w3 →
      hexVal? (s.getD (n + 11) 0) = some w4 →
      55296 ≤ ((v1 * 16 + v2) * 16 + v3) * 16 + v4 →
      ((v1 * 16 + v2) * 16 + v3) * 16 + v4 ≤ 56319 →
      56320 ≤ ((w1 * 16 + w2) * 16 + w3) * 16 + w4 →
      ((w1 * 16 + w2) * 16 + w3) * 16 + w4 ≤ 57343 →
      jdsLoop (fuel + 1) s n buf
        = jdsLoop fuel s (n + 12)
            (buf ++ utf8Enc (65536 + (((v1 * 16 + v2) * 16 + v3) * 16 + v4 - 55296) * 1024
              + (((w1 * 16 + w2) * 16 + w3) * 16 + w4 - 56320))))
    ∧ (∀ (fuel n : Nat) (s buf : List Nat) (v1 v2 v3 v4 w1 w2 w3 w4 : Nat),
      n + 12 ≤ s.length →
      s.getD n 0 = 92 → s.getD (n + 1) 0 = 117 →
      hexVal? (s.getD (n + 2) 0) = some v1 →
      hexVal? (s.getD (n + 3) 0) = some v2 →
      hexVal? (s.getD (n + 4) 0) = some v3 →
      hexVal? (s.getD (n + 5) 0) = some v4 →
      s.getD (n + 6) 0 = 92 → s.getD (n + 7) 0 = 117 →
      hexVal? (s.getD (n + 8) 0) = some w1 →
      hexVal? (s.getD (n + 9) 0) = some w2 →
      hexVal? (s.getD (n + 10) 0) = some w3 →
      hexVal? (s.getD (n + 11) 0) = some w4 →
      55296 ≤ ((v1 * 16 + v2) * 16 + v3) * 16 + v4 →
      ((v1 * 16 + v2) * 16 + v3) * 16 + v4 ≤ 56319 →
      (((w1 * 16 + w2) * 16 + w3) * 16 + w4 < 56320
        ∨ 57343 < ((w1 * 16 + w2) * 16 + w3) * 16 + w4) →
      jdsLoop (fuel + 1) s n buf = .error .syn)
    ∧ (∀ (fuel n : Nat) (s buf : List Nat) (v1 v2 v3 v4 : Nat),
      n + 6 ≤ s.length →
      s.getD n 0 = 92 → s.getD (n + 1) 0 = 117 →
      hexVal? (s.getD (n + 2) 0) = some v1 →
      hexVal? (s.getD (n + 3) 0) = some v2 →
      hexVal? (s.getD (n + 4) 0) = some v3 →
      hexVal? (s.getD (n + 5) 0) = some v4 →
      55296 ≤ ((v1 * 16 + v2) * 16 + v3) * 16 + v4 →
      ((v1 * 16 + v2) * 16 + v3) * 16 + v4 ≤ 56319 →
      (n + 7 ≥ s.length ∨ s.getD (n + 6) 0 ≠ 92 ∨ s.getD (n + 7) 0 ≠ 117) →
      jdsLoop (fuel + 1) s n buf = .error .syn)
    ∧ jsonDecode [34, 92, 117, 68, 56, 51, 68, 92, 117, 68, 69, 48, 48, 34]
        = some (.string [240, 159, 152, 128]) := by
  refine ⟨?_, ?_, ?_, rfl⟩
  · intro fuel n s buf v1 v2 v3 v4 w1 w2 w3 w4 hlen hb hu h1 h2 h3 h4 hb2 hu2 g1 g2 g3 g4
      hH1 hH2 hL1 hL2
    exact c4_pair_step fuel n s buf v1 v2 v3 v4 w1 w2 w3 w4 hlen hb hu h1 h2 h3 h4
      hb2 hu2 g1 g2 g3 g4 hH1 hH2 hL1 hL2
  · intro fuel n s buf v1 v2 v3 v4 w1 w2 w3 w4 hlen hb hu h1 h2 h3 h4 hb2 hu2 g1 g2 g3 g4
      hH1 hH2 hL
    exact c4_bad_low fuel n s buf v1 v2 v3 v4 w1 w2 w3 w4 hlen hb hu h1 h2 h3 h4
      hb2 hu2 g1 g2 g3 g4 hH1 hH2 hL
  · intro fuel n s buf v1 v2 v3 v4 hlen hb hu h1 h2 h3 h4 hH1 hH2 hafter
    exact c4_missing_low fuel n s buf v1 v2 v3 v4 hlen hb hu h1 h2 h3 h4 hH1 hH2 hafter

/-- C4 witness: the surrogate-pair theorem applied at the concrete
document quote backslash-uD83D backslash-uDE00 quote, at position 1 with
fuel 10 and an empty buffer; the hypotheses evaluate by rfl and decide,
and the combined code point is 0x1F600 = 128512. -/
theorem c4_surrogate_pairs_witness :
    jdsLoop 11 [34, 92, 117, 68, 56, 51, 68, 92, 117, 68, 69, 48, 48, 34] 1 []
      = jdsLoop 10 [34, 92, 117, 68, 56, 51, 68, 92, 117, 68, 69, 48, 48, 34] 13
          (utf8Enc 128512) := by
  have h := c4_surrogate_pairs.1 10 1 [34, 92, 117, 68, 56, 51, 68, 92, 117, 68, 69, 48, 48, 34]
    [] 13 8 3 13 13 14 0 0 (by decide) rfl rfl rfl rfl rfl rfl rfl rfl rfl rfl rfl rfl
    (by decide) (by decide) (by decide) (by decide)
  simpa using h

lemma jarrPush_items (cap : Nat) (items : List JValue) (v : JValue) :
    (jarrPush cap items v).2 = items ++ [v] := by
  simp only [jarrPush, jsonArrayPush, if_true]
  split <;> simp

lemma jsonArrayPush_inv (ok : Bool) (cap : Nat) (items : List JValue) (v : JValue)
    (h : items.length ≤ cap) :
    ((jsonArrayPush ok cap items v).1.2).length ≤ (jsonArrayPush ok cap items v).1.1 := by
  unfold jsonArrayPush
  rcases ok with _ | _ <;> by_cases hge : items.length ≥ cap <;>
    by_cases hc : 0 < cap <;> simp [hge, hc]
  all_goals first
  | omega
  | (rw [← List.length_eq_zero]; omega)

lemma jarrPush_inv (cap : Nat) (items : List JValue) (v : JValue)
    (h : items.length ≤ cap) :
    ((jarrPush cap items v).2).length ≤ (jarrPush cap items v).1 :=
  jsonArrayPush_inv true cap items v h

lemma eraseIdx_length_le {α : Type} : ∀ (l : List α) (i : Nat),
    (l.eraseIdx i).length ≤ l.length
  | [], _ => by simp [List.eraseIdx]
  | _ :: t, 0 => by simp [List.eraseIdx]
  | x :: t, i + 1 => by
    simpa [List.eraseIdx] using eraseIdx_length_le t i

lemma remove1_length (cap : Nat) (x : JValue) (t : List JValue) :
    ((jsonArrayRemove cap (x :: t) 1).2).length = t.length := by
  simp only [jsonArrayRemove]
  by_cases h : 1 < (x :: t).length
  · rw [if_pos h]
    rw [List.length_eraseIdx (x :: t) 1, if_pos h]
    simp
  · rw [if_neg h]
    rw [List.length_dropLast]
    simp

lemma jsonArrayClearGo_eq : ∀ (fuel cap : Nat) (items : List JValue),
    items.length ≤ fuel → jsonArrayClearGo fuel 0 cap items = (cap, [])
  | 0, cap, items => fun h => by
    have h0 : items = [] := List.length_eq_zero.mp (Nat.le_zero.mp h)
    subst h0
    rfl
  | fuel + 1, cap, items => fun h => by
    cases items with
    | nil => rfl
    | cons x t =>
      rw [jsonArrayClearGo]
      rw [if_pos (show 0 < (x :: t).length from by simp)]
      simp only [Nat.zero_add]
      have hc : (jsonArrayRemove cap (x :: t) 1).1 = cap := rfl
      rw [hc]
      apply jsonArrayClearGo_eq fuel cap
      rw [remove1_length]
      simp only [List.length_cons] at h
      omega

lemma jsonArrayClear_eq (cap : Nat) (items : List JValue) :
    jsonArrayClear cap items = (cap, []) :=
  jsonArrayClearGo_eq (items.length + 1) cap items (Nat.le_succ _)

lemma jobjReplace_wf : ∀ (items : List (List Nat × JValue)) (key : List Nat) (v : JValue)
    (l : List (List Nat × JValue)),
    jobjReplace items key v = some l → (∀ e ∈ items, JValueWF e.2) → JValueWF v →
    l.length = items.length ∧ ∀ e ∈ l, JValueWF e.2
  | [], _, _, _ => by simp [jobjReplace]
  | (k, w) :: t, key, v, l => by
    intro h hwf hv
    simp only [jobjReplace] at h
    split at h
    · cases h
      refine ⟨by simp, ?_⟩
      intro e he
      rcases List.mem_cons.mp he with rfl | ht
      · exact hv
      · exact hwf e (List.mem_cons_of_mem _ ht)
    · obtain ⟨l2, hrep, rfl⟩ := Option.map_eq_some'.mp h
      obtain ⟨hlen2, hwf2⟩ := jobjReplace_wf t key v l2 hrep
        (fun e he => hwf e (List.mem_cons_of_mem _ he)) hv
      refine ⟨by simp [hlen2], ?_⟩
      intro e he
      rcases List.mem_cons.mp he with rfl | ht
      · exact hwf (k, w) (List.mem_cons_self _ _)
      · exact hwf2 e ht

lemma jsonObjectSetOk_inv (cap : Nat) (items : List (List Nat × JValue))
    (key : List Nat) (v : JValue)
    (h : items.length ≤ cap) (hwf : ∀ e ∈ items, JValueWF e.2) (hv : JValueWF v) :
    ((jsonObjectSetOk cap items key v).2).length ≤ (jsonObjectSetOk cap items key v).1
    ∧ ∀ e ∈ (jsonObjectSetOk cap items key v).2, JValueWF e.2 := by
  rcases hrep : jobjReplace items key v with _ | l
  · simp only [jsonObjectSetOk, hrep]
    constructor
    · by_cases hge : items.length ≥ cap <;> by_cases hc : 0 < cap <;>
        simp [hge, hc] <;>
        first
        | omega
        | (rw [← List.length_eq_zero]; omega)
    · intro e he
      rcases List.mem_append.mp he with ht | hn
      · exact hwf e ht
      · rw [List.mem_singleton.mp hn]
        exact hv
  · simp only [jsonObjectSetOk, hrep]
    obtain ⟨hlen2, hwf2⟩ := jobjReplace_wf items key v l hrep hwf hv
    constructor
    · by_cases hge : items.length ≥ cap <;> by_cases hc : 0 < cap <;>
        simp [hge, hc] <;> omega
    · exact hwf2

lemma decoders_wf (fuel : Nat) :
    (∀ s pos v p, (decoders fuel).value s pos = .ok (v, p) → JValueWF v)
    ∧ (∀ s pos v p, (decoders fuel).arr s pos = .ok (v, p) → JValueWF v)
    ∧ (∀ s pos cap items v p, items.length ≤ cap → (∀ x ∈ items, JValueWF x) →
        (decoders fuel).arrLoop s pos cap items = .ok (v, p) → JValueWF v)
    ∧ (∀ s pos v p, (decoders fuel).obj s pos = .ok (v, p) → JValueWF v)
    ∧ (∀ s pos cap items v p, items.length ≤ cap → (∀ e ∈ items, JValueWF e.2) →
        (decoders fuel).objLoop s pos cap items = .ok (v, p) → JValueWF v) := by
  induction fuel with
  | zero =>
    refine ⟨?_, ?_, ?_, ?_, ?_⟩
    · intro s pos v p h
      simp [decoders, decZero] at h
    · intro s pos v p h
      simp [decoders, decZero] at h
    · intro s pos cap items v p _ _ h
      simp [decoders, decZero] at h
    · intro s pos v p h
      simp [decoders, decZero] at h
    · intro s pos cap items v p _ _ h
      simp [decoders, decZero] at h
  | succ n IH =>
    obtain ⟨IHv, IHa, IHal, IHo, IHol⟩ := IH
    refine ⟨?_, ?_, ?_, ?_, ?_⟩
    · -- value
      intro s pos v p h
      simp only [decoders, decStep] at h
      split at h
      · split at h
        · cases h
        · cases h
          exact .string _
      · split at h
        · exact IHa _ _ _ _ h
        · split at h
          · exact IHo _ _ _ _ h
          · split at h
            · cases h
              exact .boolean _
            · split at h
              · cases h
                exact .boolean _
              · split at h
                · cases h
                  exact .null
                · split at h
                  · cases h
                  · cases h
                    exact .number _
    · -- arr
      intro s pos v p h
      simp only [decoders, decStep] at h
      split at h
      · cases h
      · split at h
        · cases h
        · split at h
          · cases h
            exact .array 0 [] (by simp) (by simp)
          · exact IHal _ _ _ _ _ _ (by simp) (by simp) h
    · -- arrLoop
      intro s pos cap items v p hlen hwf h
      simp only [decoders, decStep] at h
      split at h
      · split at h
        · cases h
        · refine IHal _ _ _ _ _ _ ?_ ?_ h
          · exact jarrPush_inv _ _ _ hlen
          · rw [jarrPush_items]
            intro x hx
            rcases List.mem_append.mp hx with ht | hn
            · exact hwf x ht
            · rw [List.mem_singleton.mp hn]
              exact IHv _ _ _ _ (by assumption)
      · split at h
        · cases h
        · cases h
          exact .array cap items hlen hwf
    · -- obj
      intro s pos v p h
      simp only [decoders, decStep] at h
      exact IHol _ _ _ _ _ _ (by simp) (by simp) h
    · -- objLoop
      intro s pos cap items v p hlen hwf h
      simp only [decoders, decStep] at h
      split at h
      · split at h
        · cases h
        · split at h
          · cases h
          · split at h
            · cases h
            · split at h
              · cases h
              · refine IHol _ _ _ _ _ _ ?_ ?_ h
                · exact (jsonObjectSetOk_inv _ _ _ _ hlen hwf
                    (IHv _ _ _ _ (by assumption))).1
                · exact (jsonObjectSetOk_inv _ _ _ _ hlen hwf
                    (IHv _ _ _ _ (by assumption))).2
      · split at h
        · cases h
        · cases h
          exact .object cap items hlen hwf

lemma jsonArrayPushAll_spec : ∀ (vs : List JValue) (a : Nat × List JValue),
    a.2.length ≤ a.1 →
    (jsonArrayPushAll a vs).2 = a.2 ++ vs
    ∧ ((jsonArrayPushAll a vs).2).length ≤ (jsonArrayPushAll a vs).1
  | [], a => by simp [jsonArrayPushAll]
  | v :: t, a => fun h => by
    have h2 : ((jsonArrayPush true a.1 a.2 v).1.2).length ≤ (jsonArrayPush true a.1 a.2 v).1.1 :=
      jsonArrayPush_inv true a.1 a.2 v h
    have hitems : (jsonArrayPush true a.1 a.2 v).1.2 = a.2 ++ [v] := jarrPush_items a.1 a.2 v
    obtain ⟨e1, e2⟩ := jsonArrayPushAll_spec t (jsonArrayPush true a.1 a.2 v).1 h2
    constructor
    · simp only [jsonArrayPushAll, List.foldl_cons] at e1 ⊢
      rw [e1, hitems]
      simp
    · simp only [jsonArrayPushAll, List.foldl_cons] at e2 ⊢
      exact e2

/-- C9: the array invariant length at most capacity holds after
json_array_init and is preserved by json_array_push (for either allocation
outcome), json_array_remove (at any index, in range or not) and
json_array_clear (modelled as the source's iterator loop, which removes
index 1 each pass and on its final pass passes an index equal to the
length, see jsonArrayClearGo); pushing a sequence of values into a freshly
initialised array yields exactly those values in insertion order (so each
is retrievable at its insertion index) with the invariant intact; and
every value produced by the decoder is well formed: every array or object
node of the tree built by json__decode_value satisfies the invariant. -/
theorem c9_array_invariant :
    jsonArrayInit.2.length ≤ jsonArrayInit.1
    ∧ (∀ (ok : Bool) (cap : Nat) (items : List JValue) (v : JValue),
        items.length ≤ cap →
        ((jsonArrayPush ok cap items v).1.2).length ≤ (jsonArrayPush ok cap items v).1.1)
    ∧ (∀ (cap : Nat) (items : List JValue) (i : Nat), items.length ≤ cap →
        ((jsonArrayRemove cap items i).2).length ≤ (jsonArrayRemove cap items i).1)
    ∧ (∀ (cap : Nat) (items : List JValue), items.length ≤ cap →
        ((jsonArrayClear cap items).2).length ≤ (jsonArrayClear cap items).1)
    ∧ (∀ vs : List JValue,
        (jsonArrayPushAll jsonArrayInit vs).2 = vs
        ∧ ((jsonArrayPushAll jsonArrayInit vs).2).length ≤ (jsonArrayPushAll jsonArrayInit vs).1)
    ∧ (∀ (fuel : Nat) (s : List Nat) (pos : Nat) (v : JValue) (p : Nat),
        jsonDecodeValue fuel s pos = .ok (v, p) → JValueWF v) := by
  refine ⟨by simp [jsonArrayInit], jsonArrayPush_inv, ?_, ?_, ?_, ?_⟩
  · intro cap items i h
    simp only [jsonArrayRemove]
    by_cases hlt : i < items.length
    · rw [if_pos hlt]
      exact le_trans (eraseIdx_length_le items i) h
    · rw [if_neg hlt]
      rw [List.length_dropLast]
      omega
  · intro cap items h
    rw [jsonArrayClear_eq]
    simp
  · intro vs
    simpa using jsonArrayPushAll_spec vs jsonArrayInit (by simp [jsonArrayInit])
  · intro fuel s pos v p h
    exact (decoders_wf fuel).1 s pos v p h

/-- C9 witness: the invariant statements applied at concrete inputs — a
push on a full one-element array, a remove and a clear on it, pushing two
values into a fresh array, and the well-formedness of the value decoded
from the document bracket-one-bracket. -/
theorem c9_array_invariant_witness :
    ((jsonArrayPush true 1 [JValue.null] JValue.null).1.2).length
      ≤ (jsonArrayPush true 1 [JValue.null] JValue.null).1.1
    ∧ ((jsonArrayRemove 1 [JValue.null] 0).2).length ≤ (jsonArrayRemove 1 [JValue.null] 0).1
    ∧ ((jsonArrayClear 1 [JValue.null]).2).length ≤ (jsonArrayClear 1 [JValue.null]).1
    ∧ (jsonArrayPushAll jsonArrayInit [JValue.null, JValue.boolean true]).2
        = [JValue.null, JValue.boolean true]
    ∧ JValueWF (JValue.array 1 [JValue.number (ratOfToken [49])]) :=
  ⟨c9_array_invariant.2.1 true 1 [JValue.null] JValue.null (by simp),
   c9_array_invariant.2.2.1 1 [JValue.null] 0 (by simp),
   c9_array_invariant.2.2.2.1 1 [JValue.null] (by simp),
   (c9_array_invariant.2.2.2.2.1 [JValue.null, JValue.boolean true]).1,
   c9_array_invariant.2.2.2.2.2 22 (str "[1]") 0 (JValue.array 1 [JValue.number (ratOfToken [49])]) 3 rfl⟩

lemma dropWhile_eq_drop_tw (p : Nat → Bool) (l : List Nat) :
    l.dropWhile p = l.drop (l.takeWhile p).length := by
  induction l with
  | nil => simp
  | cons a t ih => by_cases h : p a <;> simp [List.takeWhile_cons, List.dropWhile_cons, h, ih]

lemma tw_decomp (p : Nat → Bool) (l : List Nat) :
    l.takeWhile p ++ l.drop (l.takeWhile p).length = l := by
  rw [← dropWhile_eq_drop_tw]
  exact List.takeWhile_append_dropWhile p l

lemma tw_nil_of_head (p : Nat → Bool) (l : List Nat) (h : p (cstrHead l) = false) :
    l.takeWhile p = [] := by
  cases l with
  | nil => simp
  | cons a t =>
    simp [cstrHead] at h
    simp [List.takeWhile_cons, h]

lemma digit_head_tw (l : List Nat) (h : isDigitB (cstrHead l) = true) :
    l.takeWhile isDigitB ≠ [] := by
  cases l with
  | nil => simp [cstrHead, isDigitB] at h
  | cons a t =>
    simp [cstrHead] at h
    simp [List.takeWhile_cons, h]

lemma tw_head_digit (l : List Nat) (h : l.takeWhile isDigitB ≠ []) :
    isDigitB (cstrHead l) = true := by
  cases l with
  | nil => simp at h
  | cons a t =>
    by_cases hp : isDigitB a
    · simpa [cstrHead]
    · simp [List.takeWhile_cons, hp] at h

lemma int_bridge_fwd (b r : List Nat) (h : jdnInt b = .ok r)
    (hnd : isDigitB (cstrHead r) = false) : tokInt b = some r := by
  unfold jdnInt at h
  unfold tokInt
  by_cases h48 : cstrHead b = 48
  · rw [if_pos h48] at h
    cases h
    cases b with
    | nil => simp [cstrHead] at h48
    | cons a t =>
      simp only [cstrHead] at h48
      subst h48
      have htw : t.takeWhile isDigitB = [] := tw_nil_of_head _ _ (by simpa [List.tail] using hnd)
      simp [List.takeWhile_cons, isDigitB, htw]
  · rw [if_neg h48] at h
    by_cases hd : 49 ≤ cstrHead b ∧ cstrHead b ≤ 57
    · rw [if_pos hd] at h
      cases h
      have hdb : isDigitB (cstrHead b) = true := by simp [isDigitB]; omega
      rw [if_pos (Or.inr ⟨digit_head_tw b hdb, h48⟩)]
      rw [← dropWhile_eq_drop_tw]
    · rw [if_neg hd] at h
      exact Except.noConfusion h

lemma frac_bridge_fwd (r r2 : List Nat) (h : jdnFrac r = .ok r2) : tokFrac r = some r2 := by
  unfold jdnFrac at h
  unfold tokFrac
  by_cases h46 : cstrHead r = 46
  · rw [if_pos h46] at h
    rw [if_pos h46]
    by_cases hd : isDigitB (cstrHead r.tail) = true
    · rw [if_pos hd] at h
      cases h
      rw [if_neg (digit_head_tw _ hd)]
      rw [← dropWhile_eq_drop_tw]
    · rw [if_neg (by simpa using hd)] at h
      exact Except.noConfusion h
  · rw [if_neg h46] at h
    rw [if_neg h46]
    cases h
    rfl

lemma exp_bridge_fwd (r r2 : List Nat) (h : jdnExp r = .ok r2) : tokExp r = some r2 := by
  unfold jdnExp at h
  unfold tokExp
  by_cases he : cstrHead r = 101 ∨ cstrHead r = 69
  · rw [if_pos he] at h
    rw [if_pos he]
    by_cases hd : isDigitB
        (cstrHead (if cstrHead r.tail = 45 ∨ cstrHead r.tail = 43 then r.tail.tail else r.tail)) = true
    · rw [if_pos hd] at h
      cases h
      rw [if_neg (digit_head_tw _ hd)]
      rw [← dropWhile_eq_drop_tw]
    · rw [if_neg (by simpa using hd)] at h
      exact Except.noConfusion h
  · rw [if_neg he] at h
    rw [if_neg he]
    cases h
    rfl

lemma int_bridge_bwd (b r : List Nat) (h : tokInt b = some r) : jdnInt b = .ok r := by
  unfold tokInt at h
  unfold jdnInt
  by_cases hc : b.takeWhile isDigitB = [48] ∨ (b.takeWhile isDigitB ≠ [] ∧ cstrHead b ≠ 48)
  · rw [if_pos hc] at h
    cases h
    rcases hc with h48 | ⟨hne, h48⟩
    · have hhb : cstrHead b = 48 := by
        cases b with
        | nil => simp at h48
        | cons a t =>
          by_cases hp : isDigitB a
          · rw [List.takeWhile_cons, if_pos hp] at h48
            have ha : a = 48 := (List.cons.inj h48).1
            simp [cstrHead, ha]
          · simp [List.takeWhile_cons, hp] at h48
      rw [if_pos hhb, h48]
      simp
    · have hdb : isDigitB (cstrHead b) = true := tw_head_digit b hne
      have h49 : 49 ≤ cstrHead b ∧ cstrHead b ≤ 57 := by
        simp [isDigitB] at hdb
        omega
      rw [if_neg h48, if_pos h49, ← dropWhile_eq_drop_tw]
  · rw [if_neg hc] at h
    exact Option.noConfusion h

lemma frac_bridge_bwd (r r2 : List Nat) (h : tokFrac r = some r2) : jdnFrac r = .ok r2 := by
  unfold tokFrac at h
  unfold jdnFrac
  by_cases h46 : cstrHead r = 46
  · rw [if_pos h46] at h
    rw [if_pos h46]
    by_cases hfd : r.tail.takeWhile isDigitB = []
    · rw [if_pos hfd] at h
      exact Option.noConfusion h
    · rw [if_neg hfd] at h
      cases h
      rw [if_pos (tw_head_digit _ hfd), ← dropWhile_eq_drop_tw]
  · rw [if_neg h46] at h
    rw [if_neg h46]
    cases h
    rfl

lemma exp_bridge_bwd (r r2 : List Nat) (h : tokExp r = some r2) : jdnExp r = .ok r2 := by
  unfold tokExp at h
  unfold jdnExp
  by_cases he : cstrHead r = 101 ∨ cstrHead r = 69
  · rw [if_pos he] at h
    rw [if_pos he]
    by_cases hed : (if cstrHead r.tail = 45 ∨ cstrHead r.tail = 43 then r.tail.tail
        else r.tail).takeWhile isDigitB = []
    · rw [if_pos hed] at h
      exact Option.noConfusion h
    · rw [if_neg hed] at h
      cases h
      rw [if_pos (tw_head_digit _ hed), ← dropWhile_eq_drop_tw]
  · rw [if_neg he] at h
    rw [if_neg he]
    cases h
    rfl

lemma jdnInt_error (b : List Nat) (e : ErrCode) (h : jdnInt b = .error e) :
    e = .invalidNumber := by
  unfold jdnInt at h
  split at h
  · exact Except.noConfusion h
  · split at h
    · exact Except.noConfusion h
    · cases h
      rfl

lemma jdnFrac_error (r : List Nat) (e : ErrCode) (h : jdnFrac r = .error e) :
    e = .invalidNumber := by
  unfold jdnFrac at h
  by_cases h46 : cstrHead r = 46
  · rw [if_pos h46] at h
    by_cases hd : isDigitB (cstrHead r.tail) = true
    · rw [if_pos hd] at h
      exact Except.noConfusion h
    · rw [if_neg (by simpa using hd)] at h
      cases h
      rfl
  · rw [if_neg h46] at h
    exact Except.noConfusion h

lemma jdnExp_error (r : List Nat) (e : ErrCode) (h : jdnExp r = .error e) :
    e = .invalidNumber := by
  unfold jdnExp at h
  by_cases he : cstrHead r = 101 ∨ cstrHead r = 69
  · rw [if_pos he] at h
    by_cases hd : isDigitB (cstrHead (if cstrHead r.tail = 45 ∨ cstrHead r.tail = 43
        then r.tail.tail else r.tail)) = true
    · rw [if_pos hd] at h
      exact Except.noConfusion h
    · rw [if_neg (by simpa using hd)] at h
      cases h
      rfl
  · rw [if_neg he] at h
    exact Except.noConfusion h

lemma jdnR_error (r : List Nat) (e : ErrCode) (h : jsonDecodeNumberR r = .error e) :
    e = .invalidNumber := by
  unfold jsonDecodeNumberR at h
  simp only [bind, Except.bind] at h
  rcases h1 : jdnInt (if cstrHead r = 45 then r.tail else r) with e1 | r2
  · rw [h1] at h
    simp only [] at h
    cases h
    exact jdnInt_error _ _ h1
  · rw [h1] at h
    simp only [] at h
    rcases h2 : jdnFrac r2 with e2 | r3
    · rw [h2] at h
      simp only [] at h
      cases h
      exact jdnFrac_error _ _ h2
    · rw [h2] at h
      simp only [] at h
      rcases h3 : jdnExp r3 with e3 | r4
      · rw [h3] at h
        simp only [] at h
        cases h
        exact jdnExp_error _ _ h3
      · rw [h3] at h
        simp only [] at h
        split at h
        · cases h
          rfl
        · split at h
          · exact Except.noConfusion h
          · cases h
            rfl

lemma c5_fwd (s : List Nat) (q : ℚ) (h : jsonDecodeNumberR s = .ok (q, ([] : List Nat))) :
    jsonNumToken s = true := by
  unfold jsonDecodeNumberR at h
  simp only [bind, Except.bind] at h
  rcases h1 : jdnInt (if cstrHead s = 45 then s.tail else s) with e1 | r2
  · rw [h1] at h
    simp only [] at h
    exact Except.noConfusion h
  · rw [h1] at h
    simp only [] at h
    rcases h2 : jdnFrac r2 with e2 | r3
    · rw [h2] at h
      simp only [] at h
      exact Except.noConfusion h
    · rw [h2] at h
      simp only [] at h
      rcases h3 : jdnExp r3 with e3 | r4
      · rw [h3] at h
        simp only [] at h
        exact Except.noConfusion h
      · rw [h3] at h
        simp only [] at h
        split at h
        · exact Except.noConfusion h
        · split at h
          · -- success: r4 = []
            have hr4 : r4 = [] := by
              have := (Except.ok.inj h)
              exact (Prod.mk.inj this).2
            subst hr4
            -- the final digit run cannot continue after the exponent part
            have hnd : isDigitB (cstrHead r2) = false := by
              by_contra hc
              rw [Bool.not_eq_false] at hc
              have hb : 48 ≤ cstrHead r2 ∧ cstrHead r2 ≤ 57 := by
                simpa [isDigitB] using hc
              have hfr : jdnFrac r2 = .ok r2 := by
                unfold jdnFrac
                rw [if_neg (by omega)]
              have hr3 : r3 = r2 := by
                rw [hfr] at h2
                exact (Except.ok.inj h2).symm
              subst hr3
              have hex : jdnExp r3 = .ok r3 := by
                unfold jdnExp
                rw [if_neg (by omega)]
              rw [hex] at h3
              have : r3 = ([] : List Nat) := Except.ok.inj h3
              subst this
              simp [cstrHead, isDigitB] at hc
            unfold jsonNumToken
            simp only []
            rw [int_bridge_fwd _ _ h1 hnd]
            simp only []
            rw [frac_bridge_fwd _ _ h2]
            simp only []
            rw [exp_bridge_fwd _ _ h3]
            rfl
          · exact Except.noConfusion h

lemma getD_one_cons (c : Nat) (l : List Nat) : (c :: l).getD 1 0 = cstrHead l := by
  cases l <;> rfl

lemma cstr_cons (l : List Nat) (h : cstrHead l ≠ 0) : l = cstrHead l :: l.tail := by
  cases l with
  | nil => simp [cstrHead] at h
  | cons a t => rfl

lemma jsonNumToken_parts (s : List Nat) (h : jsonNumToken s = true) :
    ∃ r1 r2, tokInt (if cstrHead s = 45 then s.tail else s) = some r1
      ∧ tokFrac r1 = some r2 ∧ tokExp r2 = some [] := by
  unfold jsonNumToken at h
  simp only [] at h
  rcases ht1 : tokInt (if cstrHead s = 45 then s.tail else s) with _ | r1
  · rw [ht1] at h
    simp at h
  · rw [ht1] at h
    simp only [] at h
    rcases ht2 : tokFrac r1 with _ | r2
    · rw [ht2] at h
      simp at h
    · rw [ht2] at h
      simp only [] at h
      rcases ht3 : tokExp r2 with _ | r3
      · rw [ht3] at h
        simp at h
      · rw [ht3] at h
        simp only [] at h
        have hr3 : r3 = [] := by simpa using h
        subst hr3
        exact ⟨r1, r2, rfl, ht2, ht3⟩


lemma tokInt_facts (b r1 : List Nat) (h : tokInt b = some r1) :
    b.takeWhile isDigitB ≠ [] ∧ r1 = b.drop (b.takeWhile isDigitB).length
    ∧ (b.takeWhile isDigitB = [48] ∨ (b.takeWhile isDigitB ≠ [] ∧ cstrHead b ≠ 48)) := by
  unfold tokInt at h
  by_cases hc : b.takeWhile isDigitB = [48] ∨ (b.takeWhile isDigitB ≠ [] ∧ cstrHead b ≠ 48)
  · rw [if_pos hc] at h
    cases h
    refine ⟨?_, rfl, hc⟩
    rcases hc with h48 | ⟨hne, _⟩
    · rw [h48]
      simp
    · exact hne
  · rw [if_neg hc] at h
    exact Option.noConfusion h

lemma tokFrac_facts (r1 r2 : List Nat) (h : tokFrac r1 = some r2) :
    (cstrHead r1 = 46 ∧ r1.tail.takeWhile isDigitB ≠ []
      ∧ r2 = r1.tail.drop (r1.tail.takeWhile isDigitB).length)
    ∨ (cstrHead r1 ≠ 46 ∧ r2 = r1) := by
  unfold tokFrac at h
  by_cases h46 : cstrHead r1 = 46
  · rw [if_pos h46] at h
    by_cases hfd : r1.tail.takeWhile isDigitB = []
    · rw [if_pos hfd] at h
      exact Option.noConfusion h
    · rw [if_neg hfd] at h
      cases h
      exact Or.inl ⟨h46, hfd, rfl⟩
  · rw [if_neg h46] at h
    cases h
    exact Or.inr ⟨h46, rfl⟩

lemma tokExp_facts (r2 r3 : List Nat) (h : tokExp r2 = some r3) :
    ((cstrHead r2 = 101 ∨ cstrHead r2 = 69)
      ∧ (if cstrHead r2.tail = 45 ∨ cstrHead r2.tail = 43 then r2.tail.tail
          else r2.tail).takeWhile isDigitB ≠ []
      ∧ r3 = (if cstrHead r2.tail = 45 ∨ cstrHead r2.tail = 43 then r2.tail.tail
          else r2.tail).drop ((if cstrHead r2.tail = 45 ∨ cstrHead r2.tail = 43 then r2.tail.tail
            else r2.tail).takeWhile isDigitB).length)
    ∨ (¬(cstrHead r2 = 101 ∨ cstrHead r2 = 69) ∧ r3 = r2) := by
  unfold tokExp at h
  by_cases he : cstrHead r2 = 101 ∨ cstrHead r2 = 69
  · rw [if_pos he] at h
    by_cases hed : (if cstrHead r2.tail = 45 ∨ cstrHead r2.tail = 43 then r2.tail.tail
        else r2.tail).takeWhile isDigitB = []
    · rw [if_pos hed] at h
      exact Option.noConfusion h
    · rw [if_neg hed] at h
      cases h
      exact Or.inl ⟨he, hed, rfl⟩
  · rw [if_neg he] at h
    cases h
    exact Or.inr ⟨he, rfl⟩

lemma isSpaceC_digit (c : Nat) (h : 45 ≤ c) : isSpaceC c = false := by
  simp [isSpaceC]
  omega

lemma exp_len (r2 : List Nat) (h : tokExp r2 = some []) :
    stdExpPart 101 69 r2 = r2.length := by
  rcases tokExp_facts r2 [] h with ⟨hE, hed, hrr⟩ | ⟨hE, hrr⟩
  · by_cases hs : cstrHead r2.tail = 45 ∨ cstrHead r2.tail = 43
    · rw [if_pos hs] at hed hrr
      have ht2eq : r2.tail.tail.takeWhile isDigitB = r2.tail.tail := by
        have hd := tw_decomp isDigitB r2.tail.tail
        rw [← hrr] at hd
        simpa using hd
      unfold stdExpPart
      rw [if_pos hE]
      rw [if_pos hs.symm]
      rw [List.drop_one]
      rw [if_neg hed]
      rw [ht2eq]
      have hc1 : r2 = cstrHead r2 :: r2.tail := cstr_cons r2 (by rcases hE with h | h <;> omega)
      have hc2 : r2.tail = cstrHead r2.tail :: r2.tail.tail :=
        cstr_cons r2.tail (by rcases hs with h | h <;> omega)
      have hl1 : r2.length = 1 + r2.tail.length := by
        conv_lhs => rw [hc1]
        rw [List.length_cons]
        omega
      have hl2 : r2.tail.length = 1 + r2.tail.tail.length := by
        conv_lhs => rw [hc2]
        rw [List.length_cons]
        omega
      omega
    · rw [if_neg hs] at hed hrr
      have ht2eq : r2.tail.takeWhile isDigitB = r2.tail := by
        have hd := tw_decomp isDigitB r2.tail
        rw [← hrr] at hd
        simpa using hd
      unfold stdExpPart
      rw [if_pos hE]
      rw [if_neg (show ¬(cstrHead r2.tail = 43 ∨ cstrHead r2.tail = 45) from
        fun hc => hs hc.symm)]
      rw [List.drop_zero]
      rw [if_neg hed]
      rw [ht2eq]
      have hc1 : r2 = cstrHead r2 :: r2.tail := cstr_cons r2 (by rcases hE with h | h <;> omega)
      have hl1 : r2.length = 1 + r2.tail.length := by
        conv_lhs => rw [hc1]
        rw [List.length_cons]
        omega
      omega
  · rw [← hrr]
    decide

lemma strtod_core (b r1 r2 : List Nat)
    (ht1 : tokInt b = some r1) (ht2 : tokFrac r1 = some r2) (ht3 : tokExp r2 = some []) :
    ¬(cstrHead b = 48 ∧ (b.getD 1 0 = 120 ∨ b.getD 1 0 = 88)
        ∧ (isHexB (b.getD 2 0) ∨ (b.getD 2 0 = 46 ∧ isHexB (b.getD 3 0))))
    ∧ b.takeWhile isDigitB ≠ []
    ∧ (b.takeWhile isDigitB).length
        + (stdFracPart isDigitB (b.drop (b.takeWhile isDigitB).length)).1
        + (stdFracPart isDigitB (b.drop (b.takeWhile isDigitB).length)).2.1.length
        + stdExpPart 101 69 (stdFracPart isDigitB (b.drop (b.takeWhile isDigitB).length)).2.2
        = b.length := by
  obtain ⟨hds, hr1, hbr⟩ := tokInt_facts b r1 ht1
  have hr1head : cstrHead r1 = 46 ∨ cstrHead r1 = 101 ∨ cstrHead r1 = 69 ∨ cstrHead r1 = 0 := by
    rcases tokFrac_facts r1 r2 ht2 with ⟨h46, -, -⟩ | ⟨-, hr2⟩
    · exact Or.inl h46
    · subst hr2
      rcases tokExp_facts r2 [] ht3 with ⟨hE, -, -⟩ | ⟨-, hrr⟩
      · rcases hE with h | h
        · exact Or.inr (Or.inl h)
        · exact Or.inr (Or.inr (Or.inl h))
      · rw [← hrr]
        exact Or.inr (Or.inr (Or.inr rfl))
  have hhex : ¬(cstrHead b = 48 ∧ (b.getD 1 0 = 120 ∨ b.getD 1 0 = 88)
      ∧ (isHexB (b.getD 2 0) ∨ (b.getD 2 0 = 46 ∧ isHexB (b.getD 3 0)))) := by
    rintro ⟨hz, hx, -⟩
    have h48 : b.takeWhile isDigitB = [48] := by
      rcases hbr with h | ⟨-, hne⟩
      · exact h
      · exact absurd hz hne
    have hb1 : b.getD 1 0 = cstrHead r1 := by
      have hbc : b = cstrHead b :: b.tail := cstr_cons b (by omega)
      rw [hr1, h48, show (([48] : List Nat)).length = 1 from rfl, List.drop_one]
      conv_lhs => rw [hbc]
      exact getD_one_cons _ _
    rcases hr1head with h | h | h | h <;> rw [hb1, h] at hx <;> omega
  refine ⟨hhex, hds, ?_⟩
  have hblen : b.length = (b.takeWhile isDigitB).length + r1.length := by
    have h := congrArg List.length (tw_decomp isDigitB b)
    rw [List.length_append] at h
    rw [← hr1] at h
    omega
  have hexp : stdExpPart 101 69 r2 = r2.length := exp_len r2 ht3
  rcases tokFrac_facts r1 r2 ht2 with ⟨h46, hfd, hr2⟩ | ⟨h46, hr2⟩
  · have hfp : stdFracPart isDigitB (b.drop (b.takeWhile isDigitB).length)
        = (1, r1.tail.takeWhile isDigitB, r2) := by
      rw [← hr1]
      unfold stdFracPart
      rw [if_pos h46, ← hr2]
    have e1 : (stdFracPart isDigitB (b.drop (b.takeWhile isDigitB).length)).1 = 1 := by
      rw [hfp]
    have e2 : (stdFracPart isDigitB (b.drop (b.takeWhile isDigitB).length)).2.1
        = r1.tail.takeWhile isDigitB := by
      rw [hfp]
    have e3 : (stdFracPart isDigitB (b.drop (b.takeWhile isDigitB).length)).2.2 = r2 := by
      rw [hfp]
    rw [e1, e2, e3, hexp]
    have hr1c : r1 = 46 :: r1.tail := by
      have hc := cstr_cons r1 (by rw [h46]; omega)
      rw [h46] at hc
      exact hc
    have hr1len : r1.length = 1 + r1.tail.length := by
      conv_lhs => rw [hr1c]
      rw [List.length_cons]
      omega
    have htail : r1.tail.length = (r1.tail.takeWhile isDigitB).length + r2.length := by
      have h := congrArg List.length (tw_decomp isDigitB r1.tail)
      rw [List.length_append] at h
      rw [← hr2] at h
      omega
    omega
  · have hfp : stdFracPart isDigitB (b.drop (b.takeWhile isDigitB).length)
        = (0, ([] : List Nat), r1) := by
      rw [← hr1]
      unfold stdFracPart
      rw [if_neg h46]
    have e1 : (stdFracPart isDigitB (b.drop (b.takeWhile isDigitB).length)).1 = 0 := by
      rw [hfp]
    have e2 : (stdFracPart isDigitB (b.drop (b.takeWhile isDigitB).length)).2.1
        = ([] : List Nat) := by
      rw [hfp]
    have e3 : (stdFracPart isDigitB (b.drop (b.takeWhile isDigitB).length)).2.2 = r1 := by
      rw [hfp]
    have hexp1 : stdExpPart 101 69 r1 = r1.length := by
      rw [← hr2]
      exact hexp
    rw [e1, e2, e3, hexp1]
    simp only [List.length_nil]
    omega

lemma strtod_full (s : List Nat) (htok : jsonNumToken s = true) :
    strtodLen s = s.length := by
  obtain ⟨r1, r2, ht1, ht2, ht3⟩ := jsonNumToken_parts s htok
  by_cases hsgn : cstrHead s = 45
  · rw [if_pos hsgn] at ht1
    obtain ⟨hhex, hds, hsum⟩ := strtod_core s.tail r1 r2 ht1 ht2 ht3
    have hcons : s = 45 :: s.tail := by
      have hc := cstr_cons s (by rw [hsgn]; omega)
      rw [hsgn] at hc
      exact hc
    have hws : s.takeWhile isSpaceC = [] :=
      tw_nil_of_head _ _ (by rw [hsgn]; decide)
    have hslen : s.length = 1 + s.tail.length := by
      conv_lhs => rw [hcons]
      rw [List.length_cons]
      omega
    unfold strtodLen
    simp only [hws, List.length_nil, List.drop_zero]
    rw [if_pos (Or.inr hsgn : cstrHead s = 43 ∨ cstrHead s = 45)]
    rw [List.drop_one]
    rw [if_neg hhex]
    rw [if_neg (show ¬((s.tail.takeWhile isDigitB).length
        + (stdFracPart isDigitB (s.tail.drop
            (s.tail.takeWhile isDigitB).length)).2.1.length = 0) from by
      intro h0
      apply hds
      rw [← List.length_eq_zero]
      omega)]
    omega
  · rw [if_neg hsgn] at ht1
    obtain ⟨hhex, hds, hsum⟩ := strtod_core s r1 r2 ht1 ht2 ht3
    have hdig : isDigitB (cstrHead s) = true := tw_head_digit _ hds
    have hc : 48 ≤ cstrHead s ∧ cstrHead s ≤ 57 := by simpa [isDigitB] using hdig
    have hws : s.takeWhile isSpaceC = [] :=
      tw_nil_of_head _ _ (isSpaceC_digit _ (by omega))
    have hg : ¬(cstrHead s = 43 ∨ cstrHead s = 45) := by omega
    unfold strtodLen
    simp only [hws, List.length_nil, List.drop_zero]
    rw [if_neg hg]
    rw [List.drop_zero]
    rw [if_neg hhex]
    rw [if_neg (show ¬((s.takeWhile isDigitB).length
        + (stdFracPart isDigitB (s.drop
            (s.takeWhile isDigitB).length)).2.1.length = 0) from by
      intro h0
      apply hds
      rw [← List.length_eq_zero]
      omega)]
    omega

lemma c5_bwd (s : List Nat) (hs : jsonNumToken s = true) :
    jsonDecodeNumberR s = .ok (ratOfToken s, ([] : List Nat)) := by
  obtain ⟨r1, r2, ht1, ht2, ht3⟩ := jsonNumToken_parts s hs
  have hi := int_bridge_bwd _ _ ht1
  have hf := frac_bridge_bwd _ _ ht2
  have he := exp_bridge_bwd _ _ ht3
  have hlen : s.length ≠ 0 := by
    obtain ⟨hds, -, -⟩ := tokInt_facts _ _ ht1
    intro h0
    have hs0 : s = [] := List.length_eq_zero.mp h0
    subst hs0
    simp [cstrHead] at hds
  unfold jsonDecodeNumberR
  simp only [bind, Except.bind]
  rw [hi]
  simp only []
  rw [hf]
  simp only []
  rw [he]
  simp only []
  rw [if_neg (show ¬(([] : List Nat).length = s.length) from by
    simp only [List.length_nil]
    omega)]
  rw [if_pos (show strtodLen s = s.length - ([] : List Nat).length from by
    simp only [List.length_nil, Nat.sub_zero]
    exact strtod_full s hs)]
  simp only [List.length_nil, Nat.sub_zero, List.take_length]

/-- C5: the number decoder accepts exactly the strict JSON number grammar.
json__decode_number (src/json.h lines 1104-1164), run on a remainder that
is exactly one candidate token, succeeds with an empty remainder if and
only if the token matches the strict grammar (optional single leading
minus, integer part a lone 0 or a nonzero digit followed by digits,
optional dot with one-or-more digits, optional e/E with optional sign and
one-or-more digits); every number-decoder error is
JSON_ERROR_INVALID_NUMBER; in particular decoding the document 01 fails
with JSON_ERROR_INVALID_NUMBER, and json_decode returns NULL for it. -/
theorem c5_number_grammar :
    (∀ s : List Nat,
      (∃ q, jsonDecodeNumberR s = .ok (q, ([] : List Nat))) ↔ jsonNumToken s = true)
    ∧ (∀ s e, jsonDecodeNumberR s = .error e → e = .invalidNumber)
    ∧ jsonDecodeRun (str "01") = .error .invalidNumber
    ∧ jsonDecode (str "01") = none := by
  refine ⟨fun s => ⟨?_, ?_⟩, fun s e h => jdnR_error s e h, rfl, rfl⟩
  · rintro ⟨q, h⟩
    exact c5_fwd s q h
  · intro h
    exact ⟨_, c5_bwd s h⟩

/-- Witness for C5 at the concrete token 12.5e-3: it matches the grammar
matcher and the number decoder therefore accepts it exactly. -/
theorem c5_number_grammar_witness :
    jsonNumToken (str "12.5e-3") = true
    ∧ (∃ q, jsonDecodeNumberR (str "12.5e-3") = .ok (q, ([] : List Nat))) :=
  ⟨by decide, (c5_number_grammar.1 (str "12.5e-3")).mpr (by decide)⟩

end JsonH
